import Mathlib

/-!
# Verification of the SFGF `Collider` component (src/SFGF/Collider.hpp)

The collider stores an ordered list of 2-D vertices (`m_arr`) together with a
cached bounding rectangle (`m_globalBounds`), and offers the mutators
`pushBack`, `clear`, `applyTransform` and the queries `intersects`,
`contains`, `collides`, `getGlobalBounds`.

The C++ code computes with IEEE `float`; we idealise machine floats as exact
arithmetic in a linear ordered field.  All definitions are generic in the
field `K`; the executable instance `K = ℚ` is used for all decidable, finite
checks, and `K = ℝ` is used where the source calls `std::sin` / `std::cos`
(the `circle` factory), which have no rational counterpart.

One genuinely observable quirk of the source is kept faithfully: inside
`lineIntersection` the cross product is stored into an `int`
(`int val = (q.y - p.y) * (r.x - q.x) - ...;`), so the floating value is
truncated toward zero before the sign classification.  `trunc` below models
this C++ float→int conversion.
-/

namespace SFGF

/-- `sf::Vector2f`, idealised over a field `K`. -/
structure Vec2 (K : Type) where
  x : K
  y : K
deriving DecidableEq, Repr

/-- `sf::FloatRect`: left/top corner plus width and height. -/
structure FloatRect (K : Type) where
  left : K
  top : K
  width : K
  height : K
deriving DecidableEq, Repr

/-- The 2-D affine part of `sf::Transform` (a 3×3 matrix whose last row is
`0 0 1`): `transformPoint` only reads the six affine entries. -/
structure Transform (K : Type) where
  a00 : K
  a01 : K
  a02 : K
  a10 : K
  a11 : K
  a12 : K

variable {K : Type} [LinearOrderedField K] [FloorRing K]

/-- `sf::Transform::transformPoint`. -/
def Transform.transformPoint (t : Transform K) (p : Vec2 K) : Vec2 K :=
  ⟨t.a00 * p.x + t.a01 * p.y + t.a02, t.a10 * p.x + t.a11 * p.y + t.a12⟩

/-- `sf::Transform().translate({x, y})`. -/
def Transform.translation (x y : K) : Transform K :=
  ⟨1, 0, x, 0, 1, y⟩

/-- C++ float→int conversion: truncation toward zero. -/
def trunc (v : K) : ℤ :=
  if 0 ≤ v then ⌊v⌋ else ⌈v⌉

/-- The `orientation` lambda inside `Collider::lineIntersection`.
`int val = (q.y - p.y) * (r.x - q.x) - (q.x - p.x) * (r.y - q.y);`
then `0` for collinear, `1` for positive, `2` for negative `val`. -/
def orientation (p q r : Vec2 K) : ℤ :=
  let val : ℤ := trunc ((q.y - p.y) * (r.x - q.x) - (q.x - p.x) * (r.y - q.y))
  if val = 0 then 0 else if val > 0 then 1 else 2

/-- The `isOnSegment` lambda inside `Collider::lineIntersection`: `q` lies in
the axis-aligned box spanned by `p` and `r`. -/
def isOnSegment (p q r : Vec2 K) : Bool :=
  decide (q.x ≤ max p.x r.x) && decide (min p.x r.x ≤ q.x) &&
  decide (q.y ≤ max p.y r.y) && decide (min p.y r.y ≤ q.y)

/-- `Collider::lineIntersection`. -/
def lineIntersection (p1 q1 p2 q2 : Vec2 K) : Bool :=
  let o1 := orientation p1 q1 p2
  let o2 := orientation p1 q1 q2
  let o3 := orientation p2 q2 p1
  let o4 := orientation p2 q2 q1
  if o1 ≠ o2 ∧ o3 ≠ o4 then true
  else if (o1 = 0 ∧ isOnSegment p1 p2 q1 = true) ∨
          (o2 = 0 ∧ isOnSegment p1 q2 q1 = true) ∨
          (o3 = 0 ∧ isOnSegment p2 p1 q2 = true) ∨
          (o4 = 0 ∧ isOnSegment p2 q1 q2 = true) then true
  else false

/-- `Collider::updateGlobalBounds`: running maximum seeded at `(0,0)` and
running minimum seeded at the first vertex (or `(0,0)` when empty), folded
over the whole vertex array, then packed as left/top/width/height. -/
def updateGlobalBounds (arr : List (Vec2 K)) : FloatRect K :=
  let pos0 : Vec2 K := match arr with | [] => ⟨0, 0⟩ | p :: _ => p
  let st := arr.foldl
    (fun (mp : Vec2 K × Vec2 K) pt =>
      (⟨if pt.x > mp.1.x then pt.x else mp.1.x,
        if pt.y > mp.1.y then pt.y else mp.1.y⟩,
       ⟨if pt.x < mp.2.x then pt.x else mp.2.x,
        if pt.y < mp.2.y then pt.y else mp.2.y⟩))
    ((⟨0, 0⟩ : Vec2 K), pos0)
  ⟨st.2.x, st.2.y, st.1.x - st.2.x, st.1.y - st.2.y⟩

/-- The `sfgf::Collider` state: vertex array and cached global bounds. -/
structure Collider (K : Type) where
  m_arr : List (Vec2 K)
  m_globalBounds : FloatRect K
deriving DecidableEq, Repr

/-- A default-constructed `Collider` (empty array, zero-initialised
`sf::FloatRect`). -/
def colliderDefault : Collider K := ⟨[], ⟨0, 0, 0, 0⟩⟩

/-- `Collider::getGlobalBounds`. -/
def getGlobalBounds (c : Collider K) : FloatRect K := c.m_globalBounds

/-- `Collider::pushBack`. -/
def pushBack (c : Collider K) (pt : Vec2 K) : Collider K :=
  let arr := c.m_arr ++ [pt]
  ⟨arr, updateGlobalBounds arr⟩

/-- `Collider::clear`. -/
def clear (_c : Collider K) : Collider K :=
  ⟨[], updateGlobalBounds ([] : List (Vec2 K))⟩

/-- `Collider::applyTransform`. -/
def applyTransform (c : Collider K) (t : Transform K) : Collider K :=
  let arr := c.m_arr.map t.transformPoint
  ⟨arr, updateGlobalBounds arr⟩

/-- `Collider::rectangle`. -/
def rectangle (size : Vec2 K) : Collider K :=
  pushBack (pushBack (pushBack (pushBack colliderDefault ⟨0, 0⟩)
    ⟨size.x, 0⟩) size) ⟨0, size.y⟩

/-- `Collider::nonnegatively_dimensional_rect_intersection`: both rectangles
have their `left`/`top` replaced by absolute values, then four separating
comparisons are tested. -/
def nonnegatively_dimensional_rect_intersection (lhs rhs : FloatRect K) : Bool :=
  let l : FloatRect K := ⟨|lhs.left|, |lhs.top|, lhs.width, lhs.height⟩
  let r : FloatRect K := ⟨|rhs.left|, |rhs.top|, rhs.width, rhs.height⟩
  if l.left > r.left + r.width then false
  else if l.left + l.width < r.left then false
  else if l.top > r.top + r.height then false
  else if l.top + l.height < r.top then false
  else true

/-- `sf::FloatRect::intersects` (SFML 2.x): normalise both rectangles to
min/max corners, then strict overlap on both axes.  SFML is an external
dependency of the repository; this mirrors its published implementation. -/
def rectIntersects (r1 r2 : FloatRect K) : Bool :=
  let r1MinX := min r1.left (r1.left + r1.width)
  let r1MaxX := max r1.left (r1.left + r1.width)
  let r1MinY := min r1.top (r1.top + r1.height)
  let r1MaxY := max r1.top (r1.top + r1.height)
  let r2MinX := min r2.left (r2.left + r2.width)
  let r2MaxX := max r2.left (r2.left + r2.width)
  let r2MinY := min r2.top (r2.top + r2.height)
  let r2MaxY := max r2.top (r2.top + r2.height)
  let interLeft := max r1MinX r2MinX
  let interTop := max r1MinY r2MinY
  let interRight := min r1MaxX r2MaxX
  let interBottom := min r1MaxY r2MaxY
  decide (interLeft < interRight) && decide (interTop < interBottom)

/-- The closed loop materialised inside `Collider::intersects`:
`arr.push_back(arr.front())` (only ever invoked on a non-empty array). -/
def closeLoop (l : List (Vec2 K)) : List (Vec2 K) :=
  match l with
  | [] => []
  | p :: _ => l ++ [p]

/-- The consecutive edge pairs `(arr[i-1], arr[i])` scanned by the double
loop in `Collider::intersects`. -/
def edges (c : Collider K) : List (Vec2 K × Vec2 K) :=
  let a := closeLoop c.m_arr
  a.zip a.tail

/-- `Collider::intersects`. -/
def intersects (c poly : Collider K) : Bool :=
  if ¬ nonnegatively_dimensional_rect_intersection (getGlobalBounds c)
        (getGlobalBounds poly) = true
     ∨ poly.m_arr.isEmpty ∨ c.m_arr.isEmpty then false
  else
    (edges c).any fun e1 =>
      (edges poly).any fun e2 =>
        lineIntersection e1.1 e1.2 e2.1 e2.2

/-- `Collider::contains`: even–odd rule, iterating `i` over all indices with
`j` the predecessor index (wrapping to `n-1` for `i = 0`). -/
def contains (c : Collider K) (point : Vec2 K) : Bool :=
  let n := c.m_arr.length
  (List.range n).foldl
    (fun cacc i =>
      let pti := c.m_arr.getD i ⟨0, 0⟩
      let ptj := c.m_arr.getD (if i = 0 then n - 1 else i - 1) ⟨0, 0⟩
      if (decide (pti.y ≥ point.y) ≠ decide (ptj.y ≥ point.y)) ∧
         point.x ≤ (ptj.x - pti.x) * (point.y - pti.y) / (ptj.y - pti.y) + pti.x
      then !cacc else cacc)
    false

/-- `Collider::collides`. -/
def collides (c poly : Collider K) : Bool :=
  if ¬ rectIntersects (getGlobalBounds c) (getGlobalBounds poly) = true then
    false
  else if intersects c poly then true
  else poly.m_arr.all fun v => contains c v

/-- A mutating operation on a collider (the three public mutators). -/
inductive MutOp (K : Type) where
  | push (pt : Vec2 K)
  | wipe
  | transform (t : Transform K)

/-- Run a sequence of mutating operations from a given collider state. -/
def runOps (c : Collider K) : List (MutOp K) → Collider K
  | [] => c
  | MutOp.push pt :: rest => runOps (pushBack c pt) rest
  | MutOp.wipe :: rest => runOps (clear c) rest
  | MutOp.transform t :: rest => runOps (applyTransform c t) rest

/-- The tight axis-aligned bounding box, exactly as the specification words
it: left/top are the per-axis minima over all vertices, left+width and
top+height the per-axis maxima, and the empty list gives the degenerate
zero-size box at the origin. -/
def specTightBounds (vs : List (Vec2 K)) : FloatRect K :=
  match vs with
  | [] => ⟨0, 0, 0, 0⟩
  | p :: t =>
    let mnx := t.foldl (fun a q => min a q.x) p.x
    let mny := t.foldl (fun a q => min a q.y) p.y
    let mxx := t.foldl (fun a q => max a q.x) p.x
    let mxy := t.foldl (fun a q => max a q.y) p.y
    ⟨mnx, mny, mxx - mnx, mxy - mny⟩

/-- The box `updateGlobalBounds` actually computes: per-axis minima for
left/top, but the far corner is the maximum of `0` and the per-axis maxima
(the running maximum is seeded at the origin, not at the first vertex). -/
def clampedTightBounds (vs : List (Vec2 K)) : FloatRect K :=
  match vs with
  | [] => ⟨0, 0, 0, 0⟩
  | p :: t =>
    let mnx := t.foldl (fun a q => min a q.x) p.x
    let mny := t.foldl (fun a q => min a q.y) p.y
    let mxx := max 0 (t.foldl (fun a q => max a q.x) p.x)
    let mxy := max 0 (t.foldl (fun a q => max a q.y) p.y)
    ⟨mnx, mny, mxx - mnx, mxy - mny⟩

/-- The cached-bounds invariant: `m_globalBounds` is what
`updateGlobalBounds` computes from `m_arr`. -/
def WF (c : Collider K) : Prop :=
  c.m_globalBounds = updateGlobalBounds c.m_arr

/-- `Collider::circle` (default `cnt = 128`): the source steps the angle by
the truncated literal `6.28 / cnt` and pushes
`(sin(angle)·radius + radius, cos(angle)·radius + radius)`.
`std::sin`/`std::cos` on floats are idealised as the exact real functions,
hence this definition lives over `ℝ` and is noncomputable. -/
noncomputable def circle (radius : ℝ) (cnt : ℕ := 128) : Collider ℝ :=
  (List.range cnt).foldl
    (fun c (i : ℕ) =>
      pushBack c
        ⟨Real.sin (6.28 / (cnt : ℝ) * (i : ℝ)) * radius + radius,
         Real.cos (6.28 / (cnt : ℝ) * (i : ℝ)) * radius + radius⟩)
    colliderDefault

/-- The circle vertex demanded by the specification: identical formula but
with a full-precision circular constant `2π` instead of the source's
truncated literal `6.28`. -/
noncomputable def specCircleVertex (radius : ℝ) (cnt i : ℕ) : Vec2 ℝ :=
  ⟨Real.sin (2 * Real.pi / (cnt : ℝ) * (i : ℝ)) * radius + radius,
   Real.cos (2 * Real.pi / (cnt : ℝ) * (i : ℝ)) * radius + radius⟩

/-- Exact geometric membership of a point on a closed segment, used to state
claims about segments (independent of the code's predicates). -/
def segMem (p q r : Vec2 K) : Prop :=
  ∃ t : K, 0 ≤ t ∧ t ≤ 1 ∧
    r.x = p.x + t * (q.x - p.x) ∧ r.y = p.y + t * (q.y - p.y)

/-- Two segments are parallel: the cross product of their direction vectors
vanishes. -/
def parallelSegs (p1 q1 p2 q2 : Vec2 K) : Prop :=
  (q1.x - p1.x) * (q2.y - p2.y) = (q1.y - p1.y) * (q2.x - p2.x)

theorem ite_gt_eq_max (a b : K) : (if b > a then b else a) = max a b := by
  rcases le_or_lt b a with h | h
  · rw [if_neg (not_lt.mpr h), max_eq_left h]
  · rw [if_pos h, max_eq_right h.le]

theorem ite_lt_eq_min (a b : K) : (if b < a then b else a) = min a b := by
  rcases le_or_lt a b with h | h
  · rw [if_neg (not_lt.mpr h), min_eq_left h]
  · rw [if_pos h, min_eq_right h.le]

theorem foldl_minmax_split (l : List (Vec2 K)) (mx my nx ny : K) :
    l.foldl
      (fun (mp : Vec2 K × Vec2 K) pt =>
        ((⟨max mp.1.x pt.x, max mp.1.y pt.y⟩ : Vec2 K),
         (⟨min mp.2.x pt.x, min mp.2.y pt.y⟩ : Vec2 K)))
      ((⟨mx, my⟩ : Vec2 K), (⟨nx, ny⟩ : Vec2 K)) =
    (⟨l.foldl (fun a q => max a q.x) mx, l.foldl (fun a q => max a q.y) my⟩,
     ⟨l.foldl (fun a q => min a q.x) nx, l.foldl (fun a q => min a q.y) ny⟩) := by
  induction l generalizing mx my nx ny with
  | nil => rfl
  | cons p t ih =>
    simp only [List.foldl_cons]
    exact ih _ _ _ _

theorem foldl_max_seed_x (l : List (Vec2 K)) (a b : K) :
    l.foldl (fun m q => max m q.x) (max a b) =
      max a (l.foldl (fun m q => max m q.x) b) := by
  induction l generalizing b with
  | nil => rfl
  | cons p t ih =>
    simp only [List.foldl_cons, max_assoc]
    exact ih _

theorem foldl_max_seed_y (l : List (Vec2 K)) (a b : K) :
    l.foldl (fun m q => max m q.y) (max a b) =
      max a (l.foldl (fun m q => max m q.y) b) := by
  induction l generalizing b with
  | nil => rfl
  | cons p t ih =>
    simp only [List.foldl_cons, max_assoc]
    exact ih _

theorem updateGlobalBounds_eq_clamped (vs : List (Vec2 K)) :
    updateGlobalBounds vs = clampedTightBounds vs := by
  cases vs with
  | nil => simp [updateGlobalBounds, clampedTightBounds]
  | cons p t =>
    obtain ⟨px, py⟩ := p
    simp only [updateGlobalBounds, clampedTightBounds, List.foldl_cons,
      ite_gt_eq_max, ite_lt_eq_min, min_self]
    rw [foldl_minmax_split, foldl_max_seed_x, foldl_max_seed_y]

theorem updateGlobalBounds_nil :
    updateGlobalBounds ([] : List (Vec2 K)) = ⟨0, 0, 0, 0⟩ := by
  simp [updateGlobalBounds]

theorem wf_colliderDefault : WF (colliderDefault : Collider K) := by
  show (⟨0, 0, 0, 0⟩ : FloatRect K) = updateGlobalBounds []
  rw [updateGlobalBounds_nil]

theorem wf_runOps (ops : List (MutOp K)) (c : Collider K) (h : WF c) :
    WF (runOps c ops) := by
  induction ops generalizing c with
  | nil => exact h
  | cons op rest ih =>
    cases op with
    | push pt => exact ih _ rfl
    | wipe => exact ih _ rfl
    | transform t => exact ih _ rfl

theorem contains_empty (c : Collider K) (h : c.m_arr = []) (p : Vec2 K) :
    contains c p = false := by
  simp [contains, h]

theorem intersects_empty_left (a b : Collider K) (h : a.m_arr = []) :
    intersects a b = false := by
  simp [intersects, h]

theorem intersects_empty_right (a b : Collider K) (h : b.m_arr = []) :
    intersects a b = false := by
  simp [intersects, h]

theorem rectIntersects_degenerate_left (r : FloatRect K) :
    rectIntersects (⟨0, 0, 0, 0⟩ : FloatRect K) r = false := by
  simp only [rectIntersects, add_zero, min_self, max_self]
  have h : ¬ (max (0 : K) (min r.left (r.left + r.width)) <
      min 0 (max r.left (r.left + r.width))) :=
    not_lt.mpr (le_trans (min_le_left _ _) (le_max_left _ _))
  rw [decide_eq_false h, Bool.false_and]

theorem rectIntersects_degenerate_right (r : FloatRect K) :
    rectIntersects r (⟨0, 0, 0, 0⟩ : FloatRect K) = false := by
  simp only [rectIntersects, add_zero, min_self, max_self]
  have h : ¬ (max (min r.left (r.left + r.width)) (0 : K) <
      min (max r.left (r.left + r.width)) 0) :=
    not_lt.mpr (le_trans (min_le_right _ _) (le_max_right _ _))
  rw [decide_eq_false h, Bool.false_and]

theorem collides_empty_right (a b : Collider K) (hb : WF b)
    (h : b.m_arr = []) : collides a b = false := by
  have hbb : getGlobalBounds b = ⟨0, 0, 0, 0⟩ := by
    rw [getGlobalBounds, hb, h, updateGlobalBounds_nil]
  simp [collides, hbb, rectIntersects_degenerate_right]

theorem collides_empty_left (a b : Collider K) (ha : WF a)
    (h : a.m_arr = []) : collides a b = false := by
  have haa : getGlobalBounds a = ⟨0, 0, 0, 0⟩ := by
    rw [getGlobalBounds, ha, h, updateGlobalBounds_nil]
  simp [collides, haa, rectIntersects_degenerate_left]

theorem ite_chain4 (A B C D : Prop) [Decidable A] [Decidable B] [Decidable C]
    [Decidable D] :
    (if A then false else if B then false else if C then false
     else if D then false else true) = decide (¬A ∧ ¬B ∧ ¬C ∧ ¬D) := by
  by_cases hA : A <;> by_cases hB : B <;> by_cases hC : C <;> by_cases hD : D <;>
    simp [hA, hB, hC, hD]

theorem ite_chain2 (G S : Prop) [Decidable G] [Decidable S] :
    (if G then true else if S then true else false) = decide (G ∨ S) := by
  by_cases hG : G <;> by_cases hS : S <;> simp [hG, hS]

theorem prefilter_comm (a b : FloatRect K) :
    nonnegatively_dimensional_rect_intersection a b =
      nonnegatively_dimensional_rect_intersection b a := by
  simp only [nonnegatively_dimensional_rect_intersection]
  rw [ite_chain4, ite_chain4]
  apply decide_eq_decide.mpr
  constructor
  · rintro ⟨h1, h2, h3, h4⟩; exact ⟨h2, h1, h4, h3⟩
  · rintro ⟨h1, h2, h3, h4⟩; exact ⟨h2, h1, h4, h3⟩

theorem lineIntersection_swap (p1 q1 p2 q2 : Vec2 K) :
    lineIntersection p1 q1 p2 q2 = lineIntersection p2 q2 p1 q1 := by
  simp only [lineIntersection]
  rw [ite_chain2, ite_chain2]
  apply decide_eq_decide.mpr
  tauto

theorem lineIntersection_self (p q : Vec2 K) :
    lineIntersection p q p q = true := by
  have hval : (q.y - p.y) * (p.x - q.x) - (q.x - p.x) * (p.y - q.y) = 0 := by
    ring
  have ho1 : orientation p q p = 0 := by
    simp [orientation, hval, trunc]
  have hseg : isOnSegment p p q = true := by
    simp [isOnSegment]
  simp only [lineIntersection]
  rw [ite_chain2]
  exact decide_eq_true (Or.inr (Or.inl ⟨ho1, hseg⟩))

theorem any_lineIntersection_swap (l1 l2 : List (Vec2 K × Vec2 K)) :
    (l1.any fun e1 => l2.any fun e2 => lineIntersection e1.1 e1.2 e2.1 e2.2) =
    (l2.any fun e2 => l1.any fun e1 => lineIntersection e2.1 e2.2 e1.1 e1.2) := by
  rw [Bool.eq_iff_iff]
  simp only [List.any_eq_true]
  constructor
  · rintro ⟨e1, h1, e2, h2, h⟩
    exact ⟨e2, h2, e1, h1, by rw [← lineIntersection_swap]; exact h⟩
  · rintro ⟨e2, h2, e1, h1, h⟩
    exact ⟨e1, h1, e2, h2, by rw [lineIntersection_swap]; exact h⟩

theorem intersects_comm (a b : Collider K) : intersects a b = intersects b a := by
  simp only [intersects]
  have hiff :
      (¬ nonnegatively_dimensional_rect_intersection (getGlobalBounds a)
          (getGlobalBounds b) = true ∨
        b.m_arr.isEmpty = true ∨ a.m_arr.isEmpty = true) ↔
      (¬ nonnegatively_dimensional_rect_intersection (getGlobalBounds b)
          (getGlobalBounds a) = true ∨
        a.m_arr.isEmpty = true ∨ b.m_arr.isEmpty = true) := by
    rw [prefilter_comm]
    tauto
  rw [if_congr hiff rfl (any_lineIntersection_swap _ _)]

theorem foldl_min_le_seed (f : Vec2 K → K) (l : List (Vec2 K)) (a : K) :
    l.foldl (fun m q => min m (f q)) a ≤ a := by
  induction l generalizing a with
  | nil => exact le_refl a
  | cons p t ih => exact le_trans (ih _) (min_le_left _ _)

theorem foldl_min_le_mem (f : Vec2 K → K) (l : List (Vec2 K)) (a : K)
    {p : Vec2 K} (hp : p ∈ l) :
    l.foldl (fun m q => min m (f q)) a ≤ f p := by
  induction l generalizing a with
  | nil => cases hp
  | cons q t ih =>
    rcases List.mem_cons.mp hp with h | h
    · subst h
      exact le_trans (foldl_min_le_seed f t _) (min_le_right _ _)
    · exact ih _ h

theorem le_foldl_min (f : Vec2 K → K) (l : List (Vec2 K)) (a b : K)
    (hb : b ≤ a) (h : ∀ p ∈ l, b ≤ f p) :
    b ≤ l.foldl (fun m q => min m (f q)) a := by
  induction l generalizing a with
  | nil => exact hb
  | cons q t ih =>
    exact ih _ (le_min hb (h q (List.mem_cons_self _ _)))
      (fun p hp => h p (List.mem_cons_of_mem _ hp))

theorem seed_le_foldl_max (f : Vec2 K → K) (l : List (Vec2 K)) (a : K) :
    a ≤ l.foldl (fun m q => max m (f q)) a := by
  induction l generalizing a with
  | nil => exact le_refl a
  | cons p t ih => exact le_trans (le_max_left _ _) (ih _)

theorem mem_le_foldl_max (f : Vec2 K → K) (l : List (Vec2 K)) (a : K)
    {p : Vec2 K} (hp : p ∈ l) :
    f p ≤ l.foldl (fun m q => max m (f q)) a := by
  induction l generalizing a with
  | nil => cases hp
  | cons q t ih =>
    rcases List.mem_cons.mp hp with h | h
    · subst h
      exact le_trans (le_max_right _ _) (seed_le_foldl_max f t _)
    · exact ih _ h

theorem foldl_max_le (f : Vec2 K → K) (l : List (Vec2 K)) (a b : K)
    (hb : a ≤ b) (h : ∀ p ∈ l, f p ≤ b) :
    l.foldl (fun m q => max m (f q)) a ≤ b := by
  induction l generalizing a with
  | nil => exact hb
  | cons q t ih =>
    exact ih _ (max_le hb (h q (List.mem_cons_self _ _)))
      (fun p hp => h p (List.mem_cons_of_mem _ hp))

theorem wf_bounds_nonneg (c : Collider K) (h : WF c) :
    0 ≤ c.m_globalBounds.width ∧ 0 ≤ c.m_globalBounds.height := by
  rw [h, updateGlobalBounds_eq_clamped]
  cases harr : c.m_arr with
  | nil => simp [clampedTightBounds]
  | cons p t =>
    simp only [clampedTightBounds]
    constructor
    · have h1 : t.foldl (fun a q => min a q.x) p.x ≤ p.x :=
        foldl_min_le_seed (fun q => q.x) t p.x
      have h2 : p.x ≤ t.foldl (fun a q => max a q.x) p.x :=
        seed_le_foldl_max (fun q => q.x) t p.x
      have h3 : t.foldl (fun a q => max a q.x) p.x ≤
          max 0 (t.foldl (fun a q => max a q.x) p.x) := le_max_right _ _
      linarith
    · have h1 : t.foldl (fun a q => min a q.y) p.y ≤ p.y :=
        foldl_min_le_seed (fun q => q.y) t p.y
      have h2 : p.y ≤ t.foldl (fun a q => max a q.y) p.y :=
        seed_le_foldl_max (fun q => q.y) t p.y
      have h3 : t.foldl (fun a q => max a q.y) p.y ≤
          max 0 (t.foldl (fun a q => max a q.y) p.y) := le_max_right _ _
      linarith

theorem arr_ne_nil_of_width_pos (c : Collider K) (h : WF c)
    (hw : 0 < c.m_globalBounds.width) : c.m_arr ≠ [] := by
  intro he
  rw [h, he, updateGlobalBounds_nil] at hw
  simp at hw

theorem prefilter_self (r : FloatRect K) (hw : 0 ≤ r.width)
    (hh : 0 ≤ r.height) :
    nonnegatively_dimensional_rect_intersection r r = true := by
  simp only [nonnegatively_dimensional_rect_intersection]
  rw [if_neg (not_lt.mpr (le_add_of_nonneg_right hw)),
    if_neg (not_lt.mpr (le_add_of_nonneg_right hw)),
    if_neg (not_lt.mpr (le_add_of_nonneg_right hh)),
    if_neg (not_lt.mpr (le_add_of_nonneg_right hh))]

theorem rectIntersects_self_pos (r : FloatRect K) (hw : 0 < r.width)
    (hh : 0 < r.height) : rectIntersects r r = true := by
  simp only [rectIntersects,
    min_eq_left (le_add_of_nonneg_right hw.le),
    max_eq_right (le_add_of_nonneg_right hw.le),
    min_eq_left (le_add_of_nonneg_right hh.le),
    max_eq_right (le_add_of_nonneg_right hh.le), max_self, min_self]
  rw [decide_eq_true (lt_add_of_pos_right r.left hw),
    decide_eq_true (lt_add_of_pos_right r.top hh), Bool.and_self]

theorem edges_ne_nil (c : Collider K) (h : c.m_arr ≠ []) : edges c ≠ [] := by
  obtain ⟨p, t, harr⟩ := List.exists_cons_of_ne_nil h
  obtain ⟨r, rest, hrt⟩ := List.exists_cons_of_ne_nil
    (show t ++ [p] ≠ [] by simp)
  simp [edges, closeLoop, harr, hrt]

theorem foldl_pushBack_m_arr (g : ℕ → Vec2 K) (l : List ℕ) (c : Collider K) :
    (l.foldl (fun acc i => pushBack acc (g i)) c).m_arr =
      c.m_arr ++ l.map g := by
  induction l generalizing c with
  | nil => simp
  | cons i t ih =>
    rw [List.foldl_cons, ih]
    simp [pushBack, List.append_assoc]

theorem circle_m_arr (radius : ℝ) (cnt : ℕ) :
    (circle radius cnt).m_arr = (List.range cnt).map fun i : ℕ =>
      (⟨Real.sin (6.28 / (cnt : ℝ) * ((i : ℕ) : ℝ)) * radius + radius,
        Real.cos (6.28 / (cnt : ℝ) * ((i : ℕ) : ℝ)) * radius + radius⟩ : Vec2 ℝ) := by
  unfold circle
  rw [foldl_pushBack_m_arr]
  rfl

theorem circle_length (radius : ℝ) (cnt : ℕ) :
    (circle radius cnt).m_arr.length = cnt := by
  rw [circle_m_arr]
  simp

theorem trunc_eq_zero (v : K) (h1 : -1 < v) (h2 : v < 1) : trunc v = 0 := by
  unfold trunc
  by_cases h : 0 ≤ v
  · rw [if_pos h]
    exact Int.floor_eq_zero_iff.mpr ⟨h, h2⟩
  · rw [if_neg h]
    exact Int.ceil_eq_zero_iff.mpr ⟨h1, le_of_not_le h⟩

theorem trunc_eq_one (v : K) (h1 : 1 ≤ v) (h2 : v < 2) : trunc v = 1 := by
  unfold trunc
  rw [if_pos (by linarith)]
  rw [Int.floor_eq_iff]
  constructor
  · exact_mod_cast h1
  · push_cast
    linarith

theorem orientation_mk_eq_zero (px py qx qy rx ry : K)
    (h1 : -1 < (qy - py) * (rx - qx) - (qx - px) * (ry - qy))
    (h2 : (qy - py) * (rx - qx) - (qx - px) * (ry - qy) < 1) :
    orientation (⟨px, py⟩ : Vec2 K) ⟨qx, qy⟩ ⟨rx, ry⟩ = 0 := by
  simp only [orientation]
  rw [trunc_eq_zero _ h1 h2]
  rfl

theorem orientation_mk_eq_one (px py qx qy rx ry : K)
    (h1 : 1 ≤ (qy - py) * (rx - qx) - (qx - px) * (ry - qy))
    (h2 : (qy - py) * (rx - qx) - (qx - px) * (ry - qy) < 2) :
    orientation (⟨px, py⟩ : Vec2 K) ⟨qx, qy⟩ ⟨rx, ry⟩ = 1 := by
  simp only [orientation]
  rw [trunc_eq_one _ h1 h2]
  rfl

theorem lineIntersection_true_of_general (p1 q1 p2 q2 : Vec2 K)
    (h : orientation p1 q1 p2 ≠ orientation p1 q1 q2)
    (h4 : orientation p2 q2 p1 ≠ orientation p2 q2 q1) :
    lineIntersection p1 q1 p2 q2 = true := by
  simp only [lineIntersection]
  rw [if_pos ⟨h, h4⟩]

theorem sin_taylor_bounds (t : ℝ) (h0 : 0 ≤ t) (h1 : t ≤ 1) :
    t - t ^ 3 / 6 - t ^ 4 * (5 / 96) ≤ Real.sin t ∧
    Real.sin t ≤ t - t ^ 3 / 6 + t ^ 4 * (5 / 96) := by
  have habs : |t| ≤ 1 := by rwa [abs_of_nonneg h0]
  have h := Real.sin_bound habs
  rw [abs_of_nonneg h0, abs_le] at h
  constructor <;> linarith [h.1, h.2]

theorem cos_taylor_bounds (t : ℝ) (h0 : 0 ≤ t) (h1 : t ≤ 1) :
    1 - t ^ 2 / 2 - t ^ 4 * (5 / 96) ≤ Real.cos t ∧
    Real.cos t ≤ 1 - t ^ 2 / 2 + t ^ 4 * (5 / 96) := by
  have habs : |t| ≤ 1 := by rwa [abs_of_nonneg h0]
  have h := Real.cos_bound habs
  rw [abs_of_nonneg h0, abs_le] at h
  constructor <;> linarith [h.1, h.2]

theorem sin_double_lower (x a c : ℝ) (ha : 0 ≤ a) (hc : 0 ≤ c)
    (h1 : a ≤ Real.sin x) (h3 : c ≤ Real.cos x) :
    2 * a * c ≤ Real.sin (2 * x) := by
  rw [Real.sin_two_mul]
  nlinarith [mul_nonneg (sub_nonneg.2 h1) (sub_nonneg.2 h3),
    mul_nonneg ha (sub_nonneg.2 h3), mul_nonneg hc (sub_nonneg.2 h1)]

theorem sin_double_upper (x a b c d : ℝ) (ha : 0 ≤ a) (hc : 0 ≤ c)
    (h1 : a ≤ Real.sin x) (h2 : Real.sin x ≤ b)
    (h3 : c ≤ Real.cos x) (h4 : Real.cos x ≤ d) :
    Real.sin (2 * x) ≤ 2 * b * d := by
  rw [Real.sin_two_mul]
  nlinarith [mul_nonneg (ha.trans (h1.trans h2)) (sub_nonneg.2 h4),
    mul_nonneg (hc.trans h3) (sub_nonneg.2 h2)]

theorem cos_double_lower (x c : ℝ) (hc : 0 ≤ c) (h3 : c ≤ Real.cos x) :
    2 * c ^ 2 - 1 ≤ Real.cos (2 * x) := by
  rw [Real.cos_two_mul]
  nlinarith [mul_nonneg (sub_nonneg.2 h3) (sub_nonneg.2 h3),
    mul_nonneg hc (sub_nonneg.2 h3)]

theorem cos_double_upper (x c d : ℝ) (hc : 0 ≤ c)
    (h3 : c ≤ Real.cos x) (h4 : Real.cos x ≤ d) :
    Real.cos (2 * x) ≤ 2 * d ^ 2 - 1 := by
  rw [Real.cos_two_mul]
  nlinarith [mul_nonneg (sub_nonneg.2 h4)
    (add_nonneg (hc.trans (h3.trans h4)) (hc.trans h3))]

theorem trig_u1 :
    ((0.7703547 : ℝ) ≤ Real.sin 0.881532 ∧ Real.sin 0.881532 ≤ 0.7722353) ∧
    ((0.6328507 : ℝ) ≤ Real.cos 0.881532 ∧ Real.cos 0.881532 ≤ 0.6363201) := by
  have heq : (0.881532 : ℝ) = 2 * (2 * 0.220383) := by norm_num
  have hts := sin_taylor_bounds 0.220383 (by norm_num) (by norm_num)
  have htc := cos_taylor_bounds 0.220383 (by norm_num) (by norm_num)
  have hs1 : (0.2184761 : ℝ) ≤ Real.sin 0.220383 := le_trans (by norm_num) hts.1
  have hs2 : Real.sin 0.220383 ≤ 0.218722 := le_trans hts.2 (by norm_num)
  have hc1 : (0.9755928 : ℝ) ≤ Real.cos 0.220383 := le_trans (by norm_num) htc.1
  have hc2 : Real.cos 0.220383 ≤ 0.9758386 := le_trans htc.2 (by norm_num)
  have hS1lo : (0.4262874 : ℝ) ≤ Real.sin (2 * 0.220383) :=
    le_trans (by norm_num)
      (sin_double_lower 0.220383 0.2184761 0.9755928 (by norm_num) (by norm_num) hs1 hc1)
  have hS1hi : Real.sin (2 * 0.220383) ≤ 0.4268748 :=
    le_trans (sin_double_upper 0.220383 0.2184761 0.218722 0.9755928 0.9758386 (by norm_num)
      (by norm_num) hs1 hs2 hc1 hc2) (by norm_num)
  have hC1lo : (0.9035626 : ℝ) ≤ Real.cos (2 * 0.220383) :=
    le_trans (by norm_num) (cos_double_lower 0.220383 0.9755928 (by norm_num) hc1)
  have hC1hi : Real.cos (2 * 0.220383) ≤ 0.904522 :=
    le_trans (cos_double_upper 0.220383 0.9755928 0.9758386 (by norm_num) hc1 hc2)
      (by norm_num)
  have hS2lo : (0.7703547 : ℝ) ≤ Real.sin (2 * (2 * 0.220383)) :=
    le_trans (by norm_num)
      (sin_double_lower (2 * 0.220383) 0.4262874 0.9035626 (by norm_num) (by norm_num)
        hS1lo hC1lo)
  have hS2hi : Real.sin (2 * (2 * 0.220383)) ≤ 0.7722353 :=
    le_trans (sin_double_upper (2 * 0.220383) 0.4262874 0.4268748 0.9035626 0.904522
      (by norm_num) (by norm_num) hS1lo hS1hi hC1lo hC1hi) (by norm_num)
  have hC2lo : (0.6328507 : ℝ) ≤ Real.cos (2 * (2 * 0.220383)) :=
    le_trans (by norm_num) (cos_double_lower (2 * 0.220383) 0.9035626 (by norm_num) hC1lo)
  have hC2hi : Real.cos (2 * (2 * 0.220383)) ≤ 0.6363201 :=
    le_trans (cos_double_upper (2 * 0.220383) 0.9035626 0.904522 (by norm_num) hC1lo hC1hi)
      (by norm_num)
  rw [heq]
  exact ⟨⟨hS2lo, hS2hi⟩, hC2lo, hC2hi⟩

theorem trig_u2 :
    ((0.7703552 : ℝ) ≤ Real.sin 0.881533 ∧ Real.sin 0.881533 ≤ 0.7722355) ∧
    ((0.6328492 : ℝ) ≤ Real.cos 0.881533 ∧ Real.cos 0.881533 ≤ 0.6363187) := by
  have heq : (0.881533 : ℝ) = 2 * (2 * 0.22038325) := by norm_num
  have hts := sin_taylor_bounds 0.22038325 (by norm_num) (by norm_num)
  have htc := cos_taylor_bounds 0.22038325 (by norm_num) (by norm_num)
  have hs1 : (0.2184764 : ℝ) ≤ Real.sin 0.22038325 := le_trans (by norm_num) hts.1
  have hs2 : Real.sin 0.22038325 ≤ 0.2187222 := le_trans hts.2 (by norm_num)
  have hc1 : (0.9755927 : ℝ) ≤ Real.cos 0.22038325 := le_trans (by norm_num) htc.1
  have hc2 : Real.cos 0.22038325 ≤ 0.9758385 := le_trans htc.2 (by norm_num)
  have hS1lo : (0.4262879 : ℝ) ≤ Real.sin (2 * 0.22038325) :=
    le_trans (by norm_num)
      (sin_double_lower 0.22038325 0.2184764 0.9755927 (by norm_num) (by norm_num) hs1 hc1)
  have hS1hi : Real.sin (2 * 0.22038325) ≤ 0.4268751 :=
    le_trans (sin_double_upper 0.22038325 0.2184764 0.2187222 0.9755927 0.9758385 (by norm_num)
      (by norm_num) hs1 hs2 hc1 hc2) (by norm_num)
  have hC1lo : (0.9035622 : ℝ) ≤ Real.cos (2 * 0.22038325) :=
    le_trans (by norm_num) (cos_double_lower 0.22038325 0.9755927 (by norm_num) hc1)
  have hC1hi : Real.cos (2 * 0.22038325) ≤ 0.9045216 :=
    le_trans (cos_double_upper 0.22038325 0.9755927 0.9758385 (by norm_num) hc1 hc2)
      (by norm_num)
  have hS2lo : (0.7703552 : ℝ) ≤ Real.sin (2 * (2 * 0.22038325)) :=
    le_trans (by norm_num)
      (sin_double_lower (2 * 0.22038325) 0.4262879 0.9035622 (by norm_num) (by norm_num)
        hS1lo hC1lo)
  have hS2hi : Real.sin (2 * (2 * 0.22038325)) ≤ 0.7722355 :=
    le_trans (sin_double_upper (2 * 0.22038325) 0.4262879 0.4268751 0.9035622 0.9045216
      (by norm_num) (by norm_num) hS1lo hS1hi hC1lo hC1hi) (by norm_num)
  have hC2lo : (0.6328492 : ℝ) ≤ Real.cos (2 * (2 * 0.22038325)) :=
    le_trans (by norm_num) (cos_double_lower (2 * 0.22038325) 0.9035622 (by norm_num) hC1lo)
  have hC2hi : Real.cos (2 * (2 * 0.22038325)) ≤ 0.6363187 :=
    le_trans (cos_double_upper (2 * 0.22038325) 0.9035622 0.9045216 (by norm_num) hC1lo hC1hi)
      (by norm_num)
  rw [heq]
  exact ⟨⟨hS2lo, hS2hi⟩, hC2lo, hC2hi⟩

theorem trig_u3 :
    ((0.8002408 : ℝ) ≤ Real.sin 0.9305945 ∧ Real.sin 0.9305945 ≤ 0.8026196) ∧
    ((0.5935412 : ℝ) ≤ Real.cos 0.9305945 ∧ Real.cos 0.9305945 ≤ 0.5977855) := by
  have heq : (0.9305945 : ℝ) = 2 * (2 * 0.232648625) := by norm_num
  have hts := sin_taylor_bounds 0.232648625 (by norm_num) (by norm_num)
  have htc := cos_taylor_bounds 0.232648625 (by norm_num) (by norm_num)
  have hs1 : (0.2303973 : ℝ) ≤ Real.sin 0.232648625 := le_trans (by norm_num) hts.1
  have hs2 : Real.sin 0.232648625 ≤ 0.2307026 := le_trans hts.2 (by norm_num)
  have hc1 : (0.9727847 : ℝ) ≤ Real.cos 0.232648625 := le_trans (by norm_num) htc.1
  have hc2 : Real.cos 0.232648625 ≤ 0.9730899 := le_trans htc.2 (by norm_num)
  have hS1lo : (0.4482539 : ℝ) ≤ Real.sin (2 * 0.232648625) :=
    le_trans (by norm_num)
      (sin_double_lower 0.232648625 0.2303973 0.9727847 (by norm_num) (by norm_num) hs1 hc1)
  have hS1hi : Real.sin (2 * 0.232648625) ≤ 0.4489888 :=
    le_trans (sin_double_upper 0.232648625 0.2303973 0.2307026 0.9727847 0.9730899 (by norm_num)
      (by norm_num) hs1 hs2 hc1 hc2) (by norm_num)
  have hC1lo : (0.8926201 : ℝ) ≤ Real.cos (2 * 0.232648625) :=
    le_trans (by norm_num) (cos_double_lower 0.232648625 0.9727847 (by norm_num) hc1)
  have hC1hi : Real.cos (2 * 0.232648625) ≤ 0.893808 :=
    le_trans (cos_double_upper 0.232648625 0.9727847 0.9730899 (by norm_num) hc1 hc2)
      (by norm_num)
  have hS2lo : (0.8002408 : ℝ) ≤ Real.sin (2 * (2 * 0.232648625)) :=
    le_trans (by norm_num)
      (sin_double_lower (2 * 0.232648625) 0.4482539 0.8926201 (by norm_num) (by norm_num)
        hS1lo hC1lo)
  have hS2hi : Real.sin (2 * (2 * 0.232648625)) ≤ 0.8026196 :=
    le_trans (sin_double_upper (2 * 0.232648625) 0.4482539 0.4489888 0.8926201 0.893808
      (by norm_num) (by norm_num) hS1lo hS1hi hC1lo hC1hi) (by norm_num)
  have hC2lo : (0.5935412 : ℝ) ≤ Real.cos (2 * (2 * 0.232648625)) :=
    le_trans (by norm_num) (cos_double_lower (2 * 0.232648625) 0.8926201 (by norm_num) hC1lo)
  have hC2hi : Real.cos (2 * (2 * 0.232648625)) ≤ 0.5977855 :=
    le_trans (cos_double_upper (2 * 0.232648625) 0.8926201 0.893808 (by norm_num) hC1lo hC1hi)
      (by norm_num)
  rw [heq]
  exact ⟨⟨hS2lo, hS2hi⟩, hC2lo, hC2hi⟩

theorem trig_u4 :
    ((0.800241 : ℝ) ≤ Real.sin 0.9305955 ∧ Real.sin 0.9305955 ≤ 0.8026203) ∧
    ((0.5935398 : ℝ) ≤ Real.cos 0.9305955 ∧ Real.cos 0.9305955 ≤ 0.5977855) := by
  have heq : (0.9305955 : ℝ) = 2 * (2 * 0.232648875) := by norm_num
  have hts := sin_taylor_bounds 0.232648875 (by norm_num) (by norm_num)
  have htc := cos_taylor_bounds 0.232648875 (by norm_num) (by norm_num)
  have hs1 : (0.2303975 : ℝ) ≤ Real.sin 0.232648875 := le_trans (by norm_num) hts.1
  have hs2 : Real.sin 0.232648875 ≤ 0.2307028 := le_trans hts.2 (by norm_num)
  have hc1 : (0.9727846 : ℝ) ≤ Real.cos 0.232648875 := le_trans (by norm_num) htc.1
  have hc2 : Real.cos 0.232648875 ≤ 0.9730899 := le_trans htc.2 (by norm_num)
  have hS1lo : (0.4482542 : ℝ) ≤ Real.sin (2 * 0.232648875) :=
    le_trans (by norm_num)
      (sin_double_lower 0.232648875 0.2303975 0.9727846 (by norm_num) (by norm_num) hs1 hc1)
  have hS1hi : Real.sin (2 * 0.232648875) ≤ 0.4489892 :=
    le_trans (sin_double_upper 0.232648875 0.2303975 0.2307028 0.9727846 0.9730899 (by norm_num)
      (by norm_num) hs1 hs2 hc1 hc2) (by norm_num)
  have hC1lo : (0.8926197 : ℝ) ≤ Real.cos (2 * 0.232648875) :=
    le_trans (by norm_num) (cos_double_lower 0.232648875 0.9727846 (by norm_num) hc1)
  have hC1hi : Real.cos (2 * 0.232648875) ≤ 0.893808 :=
    le_trans (cos_double_upper 0.232648875 0.9727846 0.9730899 (by norm_num) hc1 hc2)
      (by norm_num)
  have hS2lo : (0.800241 : ℝ) ≤ Real.sin (2 * (2 * 0.232648875)) :=
    le_trans (by norm_num)
      (sin_double_lower (2 * 0.232648875) 0.4482542 0.8926197 (by norm_num) (by norm_num)
        hS1lo hC1lo)
  have hS2hi : Real.sin (2 * (2 * 0.232648875)) ≤ 0.8026203 :=
    le_trans (sin_double_upper (2 * 0.232648875) 0.4482542 0.4489892 0.8926197 0.893808
      (by norm_num) (by norm_num) hS1lo hS1hi hC1lo hC1hi) (by norm_num)
  have hC2lo : (0.5935398 : ℝ) ≤ Real.cos (2 * (2 * 0.232648875)) :=
    le_trans (by norm_num) (cos_double_lower (2 * 0.232648875) 0.8926197 (by norm_num) hC1lo)
  have hC2hi : Real.cos (2 * (2 * 0.232648875)) ≤ 0.5977855 :=
    le_trans (cos_double_upper (2 * 0.232648875) 0.8926197 0.893808 (by norm_num) hC1lo hC1hi)
      (by norm_num)
  rw [heq]
  exact ⟨⟨hS2lo, hS2hi⟩, hC2lo, hC2hi⟩

/-- Bounds for sine and cosine at the sampled angle
`6.28/128 * 82 = 6437/1600 = 4.023125`, obtained by writing it as
`π + s` with `s ∈ [0.881532, 0.881533]`. -/
theorem sin_cos_A :
    ((-0.7722355 : ℝ) ≤ Real.sin (6437 / 1600 : ℝ) ∧
      Real.sin (6437 / 1600 : ℝ) ≤ -0.7703547) ∧
    ((-0.6363201 : ℝ) ≤ Real.cos (6437 / 1600 : ℝ) ∧
      Real.cos (6437 / 1600 : ℝ) ≤ -0.6328492) := by
  have hpi1 := Real.pi_gt_d6
  have hpi2 := Real.pi_lt_d6
  set s : ℝ := 6437 / 1600 - Real.pi with hs
  clear_value s
  have hslo : (0.881532 : ℝ) ≤ s := by rw [hs]; norm_num at hpi2 ⊢; linarith
  have hshi : s ≤ 0.881533 := by rw [hs]; norm_num at hpi1 ⊢; linarith
  have hshift : (6437 / 1600 : ℝ) = Real.pi + s := by rw [hs]; ring
  have hsin_eq : Real.sin (6437 / 1600 : ℝ) = -Real.sin s := by
    rw [hshift, Real.sin_add, Real.sin_pi, Real.cos_pi]; ring
  have hcos_eq : Real.cos (6437 / 1600 : ℝ) = -Real.cos s := by
    rw [hshift, Real.cos_add, Real.sin_pi, Real.cos_pi]; ring
  have hm1 : (0.881532 : ℝ) ∈ Set.Icc (-(Real.pi / 2)) (Real.pi / 2) :=
    Set.mem_Icc.mpr ⟨by norm_num at hpi1 ⊢; linarith, by norm_num at hpi1 ⊢; linarith⟩
  have hm2 : (0.881533 : ℝ) ∈ Set.Icc (-(Real.pi / 2)) (Real.pi / 2) :=
    Set.mem_Icc.mpr ⟨by norm_num at hpi1 ⊢; linarith, by norm_num at hpi1 ⊢; linarith⟩
  have hms : s ∈ Set.Icc (-(Real.pi / 2)) (Real.pi / 2) :=
    Set.mem_Icc.mpr ⟨by norm_num at hpi1 ⊢; linarith, by norm_num at hpi1 ⊢; linarith⟩
  have hm1c : (0.881532 : ℝ) ∈ Set.Icc (0 : ℝ) Real.pi :=
    Set.mem_Icc.mpr ⟨by norm_num, by norm_num at hpi1 ⊢; linarith⟩
  have hm2c : (0.881533 : ℝ) ∈ Set.Icc (0 : ℝ) Real.pi :=
    Set.mem_Icc.mpr ⟨by norm_num, by norm_num at hpi1 ⊢; linarith⟩
  have hmsc : s ∈ Set.Icc (0 : ℝ) Real.pi :=
    Set.mem_Icc.mpr ⟨by linarith, by norm_num at hpi1 ⊢; linarith⟩
  have hsin_lo := Real.strictMonoOn_sin.monotoneOn hm1 hms hslo
  have hsin_hi := Real.strictMonoOn_sin.monotoneOn hms hm2 hshi
  have hcos_hi := Real.strictAntiOn_cos.antitoneOn hm1c hmsc hslo
  have hcos_lo := Real.strictAntiOn_cos.antitoneOn hmsc hm2c hshi
  obtain ⟨⟨h1s, _⟩, _, h1c⟩ := trig_u1
  obtain ⟨⟨_, h2s⟩, h2c, _⟩ := trig_u2
  refine ⟨⟨?_, ?_⟩, ?_, ?_⟩
  · rw [hsin_eq]; linarith
  · rw [hsin_eq]; linarith
  · rw [hcos_eq]; linarith
  · rw [hcos_eq]; linarith

/-- Bounds for sine and cosine at the sampled angle
`6.28/128 * 83 = 13031/3200 = 4.0721875`, via `π + s` with
`s ∈ [0.9305945, 0.9305955]`. -/
theorem sin_cos_B :
    ((-0.8026203 : ℝ) ≤ Real.sin (13031 / 3200 : ℝ) ∧
      Real.sin (13031 / 3200 : ℝ) ≤ -0.8002408) ∧
    ((-0.5977855 : ℝ) ≤ Real.cos (13031 / 3200 : ℝ) ∧
      Real.cos (13031 / 3200 : ℝ) ≤ -0.5935398) := by
  have hpi1 := Real.pi_gt_d6
  have hpi2 := Real.pi_lt_d6
  set s : ℝ := 13031 / 3200 - Real.pi with hs
  clear_value s
  have hslo : (0.9305945 : ℝ) ≤ s := by rw [hs]; norm_num at hpi2 ⊢; linarith
  have hshi : s ≤ 0.9305955 := by rw [hs]; norm_num at hpi1 ⊢; linarith
  have hshift : (13031 / 3200 : ℝ) = Real.pi + s := by rw [hs]; ring
  have hsin_eq : Real.sin (13031 / 3200 : ℝ) = -Real.sin s := by
    rw [hshift, Real.sin_add, Real.sin_pi, Real.cos_pi]; ring
  have hcos_eq : Real.cos (13031 / 3200 : ℝ) = -Real.cos s := by
    rw [hshift, Real.cos_add, Real.sin_pi, Real.cos_pi]; ring
  have hm1 : (0.9305945 : ℝ) ∈ Set.Icc (-(Real.pi / 2)) (Real.pi / 2) :=
    Set.mem_Icc.mpr ⟨by norm_num at hpi1 ⊢; linarith, by norm_num at hpi1 ⊢; linarith⟩
  have hm2 : (0.9305955 : ℝ) ∈ Set.Icc (-(Real.pi / 2)) (Real.pi / 2) :=
    Set.mem_Icc.mpr ⟨by norm_num at hpi1 ⊢; linarith, by norm_num at hpi1 ⊢; linarith⟩
  have hms : s ∈ Set.Icc (-(Real.pi / 2)) (Real.pi / 2) :=
    Set.mem_Icc.mpr ⟨by norm_num at hpi1 ⊢; linarith, by norm_num at hpi1 ⊢; linarith⟩
  have hm1c : (0.9305945 : ℝ) ∈ Set.Icc (0 : ℝ) Real.pi :=
    Set.mem_Icc.mpr ⟨by norm_num, by norm_num at hpi1 ⊢; linarith⟩
  have hm2c : (0.9305955 : ℝ) ∈ Set.Icc (0 : ℝ) Real.pi :=
    Set.mem_Icc.mpr ⟨by norm_num, by norm_num at hpi1 ⊢; linarith⟩
  have hmsc : s ∈ Set.Icc (0 : ℝ) Real.pi :=
    Set.mem_Icc.mpr ⟨by linarith, by norm_num at hpi1 ⊢; linarith⟩
  have hsin_lo := Real.strictMonoOn_sin.monotoneOn hm1 hms hslo
  have hsin_hi := Real.strictMonoOn_sin.monotoneOn hms hm2 hshi
  have hcos_hi := Real.strictAntiOn_cos.antitoneOn hm1c hmsc hslo
  have hcos_lo := Real.strictAntiOn_cos.antitoneOn hmsc hm2c hshi
  obtain ⟨⟨h3s, _⟩, _, h3c⟩ := trig_u3
  obtain ⟨⟨_, h4s⟩, h4c, _⟩ := trig_u4
  refine ⟨⟨?_, ?_⟩, ?_, ?_⟩
  · rw [hsin_eq]; linarith
  · rw [hsin_eq]; linarith
  · rw [hcos_eq]; linarith
  · rw [hcos_eq]; linarith

theorem bounds_left_le (vs : List (Vec2 K)) {p : Vec2 K} (hp : p ∈ vs) :
    (updateGlobalBounds vs).left ≤ p.x := by
  rw [updateGlobalBounds_eq_clamped]
  cases vs with
  | nil => cases hp
  | cons q t =>
    simp only [clampedTightBounds]
    rcases List.mem_cons.mp hp with h | h
    · subst h; exact foldl_min_le_seed (fun v => v.x) t _
    · exact foldl_min_le_mem (fun v => v.x) t _ h

theorem le_bounds_left (vs : List (Vec2 K)) (hne : vs ≠ []) (b : K)
    (h : ∀ p ∈ vs, b ≤ p.x) : b ≤ (updateGlobalBounds vs).left := by
  rw [updateGlobalBounds_eq_clamped]
  cases vs with
  | nil => exact absurd rfl hne
  | cons q t =>
    simp only [clampedTightBounds]
    exact le_foldl_min _ t _ b (h q (List.mem_cons_self _ _))
      (fun p hp => h p (List.mem_cons_of_mem _ hp))

theorem le_bounds_right (vs : List (Vec2 K)) {p : Vec2 K} (hp : p ∈ vs) :
    p.x ≤ (updateGlobalBounds vs).left + (updateGlobalBounds vs).width := by
  rw [updateGlobalBounds_eq_clamped]
  cases vs with
  | nil => cases hp
  | cons q t =>
    simp only [clampedTightBounds]
    rw [show ∀ m M : K, m + (M - m) = M from fun m M => by ring]
    refine le_trans ?_ (le_max_right 0 _)
    rcases List.mem_cons.mp hp with h | h
    · subst h; exact seed_le_foldl_max (fun v => v.x) t _
    · exact mem_le_foldl_max (fun v => v.x) t _ h

theorem bounds_right_le (vs : List (Vec2 K)) (b : K) (hb : 0 ≤ b)
    (h : ∀ p ∈ vs, p.x ≤ b) :
    (updateGlobalBounds vs).left + (updateGlobalBounds vs).width ≤ b := by
  rw [updateGlobalBounds_eq_clamped]
  cases vs with
  | nil => simpa [clampedTightBounds] using hb
  | cons q t =>
    simp only [clampedTightBounds]
    rw [show ∀ m M : K, m + (M - m) = M from fun m M => by ring]
    exact max_le hb (foldl_max_le _ t _ b (h q (List.mem_cons_self _ _))
      (fun p hp => h p (List.mem_cons_of_mem _ hp)))

theorem bounds_top_le (vs : List (Vec2 K)) {p : Vec2 K} (hp : p ∈ vs) :
    (updateGlobalBounds vs).top ≤ p.y := by
  rw [updateGlobalBounds_eq_clamped]
  cases vs with
  | nil => cases hp
  | cons q t =>
    simp only [clampedTightBounds]
    rcases List.mem_cons.mp hp with h | h
    · subst h; exact foldl_min_le_seed (fun v => v.y) t _
    · exact foldl_min_le_mem (fun v => v.y) t _ h

theorem le_bounds_top (vs : List (Vec2 K)) (hne : vs ≠ []) (b : K)
    (h : ∀ p ∈ vs, b ≤ p.y) : b ≤ (updateGlobalBounds vs).top := by
  rw [updateGlobalBounds_eq_clamped]
  cases vs with
  | nil => exact absurd rfl hne
  | cons q t =>
    simp only [clampedTightBounds]
    exact le_foldl_min _ t _ b (h q (List.mem_cons_self _ _))
      (fun p hp => h p (List.mem_cons_of_mem _ hp))

theorem le_bounds_bottom (vs : List (Vec2 K)) {p : Vec2 K} (hp : p ∈ vs) :
    p.y ≤ (updateGlobalBounds vs).top + (updateGlobalBounds vs).height := by
  rw [updateGlobalBounds_eq_clamped]
  cases vs with
  | nil => cases hp
  | cons q t =>
    simp only [clampedTightBounds]
    rw [show ∀ m M : K, m + (M - m) = M from fun m M => by ring]
    refine le_trans ?_ (le_max_right 0 _)
    rcases List.mem_cons.mp hp with h | h
    · subst h; exact seed_le_foldl_max (fun v => v.y) t _
    · exact mem_le_foldl_max (fun v => v.y) t _ h

theorem bounds_bottom_le (vs : List (Vec2 K)) (b : K) (hb : 0 ≤ b)
    (h : ∀ p ∈ vs, p.y ≤ b) :
    (updateGlobalBounds vs).top + (updateGlobalBounds vs).height ≤ b := by
  rw [updateGlobalBounds_eq_clamped]
  cases vs with
  | nil => simpa [clampedTightBounds] using hb
  | cons q t =>
    simp only [clampedTightBounds]
    rw [show ∀ m M : K, m + (M - m) = M from fun m M => by ring]
    exact max_le hb (foldl_max_le _ t _ b (h q (List.mem_cons_self _ _))
      (fun p hp => h p (List.mem_cons_of_mem _ hp)))

theorem zip_tail_adjacent_mem {A : Type} (l : List A) (i : ℕ)
    (hi1 : i + 1 < l.length) (hi : i < l.length) :
    (l.get ⟨i, hi⟩, l.get ⟨i + 1, hi1⟩) ∈ l.zip l.tail := by
  induction l generalizing i with
  | nil => simp at hi
  | cons a t ih =>
    cases t with
    | nil => simp at hi1
    | cons b t2 =>
      cases i with
      | zero => simp
      | succ j =>
        have hj1 : j + 1 < (b :: t2).length := by simpa using hi1
        have hj : j < (b :: t2).length := by simpa using hi
        have hmem := ih j hj1 hj
        simp only [List.tail_cons] at hmem ⊢
        exact List.mem_cons_of_mem _ (by simpa using hmem)

theorem applyTransform_m_arr (c : Collider K) (t : Transform K) :
    (applyTransform c t).m_arr = c.m_arr.map t.transformPoint := rfl

theorem applyTransform_m_globalBounds (c : Collider K) (t : Transform K) :
    (applyTransform c t).m_globalBounds =
      updateGlobalBounds (c.m_arr.map t.transformPoint) := rfl

theorem circle5_arr :
    (applyTransform (circle 5) (Transform.translation 9 0)).m_arr =
      (List.range 128).map fun i : ℕ =>
        (⟨Real.sin (6.28 / 128 * (i : ℝ)) * 5 + 14,
          Real.cos (6.28 / 128 * (i : ℝ)) * 5 + 5⟩ : Vec2 ℝ) := by
  rw [applyTransform_m_arr, circle_m_arr, List.map_map]
  refine List.map_congr_left fun i _ => ?_
  simp only [Function.comp_apply, Transform.transformPoint, Transform.translation]
  rw [show ((128 : ℕ) : ℝ) = 128 from by norm_num]
  rw [Vec2.mk.injEq]
  constructor <;> ring

theorem circle5_arr2 :
    (applyTransform (applyTransform (circle 5) (Transform.translation 9 0))
      (Transform.translation 9 0)).m_arr =
      (List.range 128).map fun i : ℕ =>
        (⟨Real.sin (6.28 / 128 * (i : ℝ)) * 5 + 23,
          Real.cos (6.28 / 128 * (i : ℝ)) * 5 + 5⟩ : Vec2 ℝ) := by
  rw [applyTransform_m_arr, circle5_arr, List.map_map]
  refine List.map_congr_left fun i _ => ?_
  simp only [Function.comp_apply, Transform.transformPoint, Transform.translation]
  rw [Vec2.mk.injEq]
  constructor <;> ring

theorem c1_arr_ne_nil :
    (applyTransform (circle 5) (Transform.translation 9 0)).m_arr ≠ [] := by
  rw [circle5_arr]
  intro h
  have := congrArg List.length h
  simp at this

theorem mem_c1_arr (i : ℕ) (h : i < 128) :
    (⟨Real.sin (6.28 / 128 * (i : ℝ)) * 5 + 14,
      Real.cos (6.28 / 128 * (i : ℝ)) * 5 + 5⟩ : Vec2 ℝ) ∈
    (applyTransform (circle 5) (Transform.translation 9 0)).m_arr := by
  rw [circle5_arr]
  exact List.mem_map.mpr ⟨i, List.mem_range.mpr h, rfl⟩

theorem rect_arr :
    (rectangle (⟨10, 10⟩ : Vec2 ℝ)).m_arr =
      [⟨0, 0⟩, ⟨10, 0⟩, ⟨10, 10⟩, ⟨0, 10⟩] := by
  simp [rectangle, pushBack, colliderDefault]

theorem rect_ne_nil : (rectangle (⟨10, 10⟩ : Vec2 ℝ)).m_arr ≠ [] := by
  rw [rect_arr]
  simp

theorem rect_bounds :
    (rectangle (⟨10, 10⟩ : Vec2 ℝ)).m_globalBounds = ⟨0, 0, 10, 10⟩ := by
  have h : (rectangle (⟨10, 10⟩ : Vec2 ℝ)).m_globalBounds =
      updateGlobalBounds (rectangle (⟨10, 10⟩ : Vec2 ℝ)).m_arr := rfl
  rw [h, rect_arr, updateGlobalBounds_eq_clamped]
  simp only [clampedTightBounds, List.foldl_cons, List.foldl_nil]
  norm_num

theorem rect_edge_mem :
    ((⟨10, 0⟩, ⟨10, 10⟩) : Vec2 ℝ × Vec2 ℝ) ∈
      edges (rectangle (⟨10, 10⟩ : Vec2 ℝ)) := by
  simp only [edges, rect_arr, closeLoop]
  simp

theorem c1_edge_mem :
    ((⟨Real.sin (6.28 / 128 * ((82 : ℕ) : ℝ)) * 5 + 14,
       Real.cos (6.28 / 128 * ((82 : ℕ) : ℝ)) * 5 + 5⟩,
      ⟨Real.sin (6.28 / 128 * ((83 : ℕ) : ℝ)) * 5 + 14,
       Real.cos (6.28 / 128 * ((83 : ℕ) : ℝ)) * 5 + 5⟩) : Vec2 ℝ × Vec2 ℝ) ∈
    edges (applyTransform (circle 5) (Transform.translation 9 0)) := by
  simp only [edges]
  rw [circle5_arr]
  have hne : (List.range 128).map (fun i : ℕ =>
      (⟨Real.sin (6.28 / 128 * (i : ℝ)) * 5 + 14,
        Real.cos (6.28 / 128 * (i : ℝ)) * 5 + 5⟩ : Vec2 ℝ)) ≠ [] := by
    intro h0
    have := congrArg List.length h0
    simp at this
  obtain ⟨p, t, hpt⟩ := List.exists_cons_of_ne_nil hne
  have hcl : closeLoop ((List.range 128).map (fun i : ℕ =>
      (⟨Real.sin (6.28 / 128 * (i : ℝ)) * 5 + 14,
        Real.cos (6.28 / 128 * (i : ℝ)) * 5 + 5⟩ : Vec2 ℝ))) =
      (List.range 128).map (fun i : ℕ =>
        (⟨Real.sin (6.28 / 128 * (i : ℝ)) * 5 + 14,
          Real.cos (6.28 / 128 * (i : ℝ)) * 5 + 5⟩ : Vec2 ℝ)) ++ [p] := by
    rw [hpt]
    rfl
  rw [hcl]
  have hlen : ((List.range 128).map (fun i : ℕ =>
      (⟨Real.sin (6.28 / 128 * (i : ℝ)) * 5 + 14,
        Real.cos (6.28 / 128 * (i : ℝ)) * 5 + 5⟩ : Vec2 ℝ)) ++ [p]).length = 129 := by
    simp
  have h82 : (82 : ℕ) < ((List.range 128).map (fun i : ℕ =>
      (⟨Real.sin (6.28 / 128 * (i : ℝ)) * 5 + 14,
        Real.cos (6.28 / 128 * (i : ℝ)) * 5 + 5⟩ : Vec2 ℝ)) ++ [p]).length := by
    omega
  have h83 : 82 + 1 < ((List.range 128).map (fun i : ℕ =>
      (⟨Real.sin (6.28 / 128 * (i : ℝ)) * 5 + 14,
        Real.cos (6.28 / 128 * (i : ℝ)) * 5 + 5⟩ : Vec2 ℝ)) ++ [p]).length := by
    omega
  have hmem := zip_tail_adjacent_mem _ 82 h83 h82
  have hv82 : ((List.range 128).map (fun i : ℕ =>
      (⟨Real.sin (6.28 / 128 * (i : ℝ)) * 5 + 14,
        Real.cos (6.28 / 128 * (i : ℝ)) * 5 + 5⟩ : Vec2 ℝ)) ++ [p]).get ⟨82, h82⟩ =
      ⟨Real.sin (6.28 / 128 * ((82 : ℕ) : ℝ)) * 5 + 14,
       Real.cos (6.28 / 128 * ((82 : ℕ) : ℝ)) * 5 + 5⟩ := by
    rw [List.get_eq_getElem]
    rw [List.getElem_append_left (by simp)]
    simp
  have hv83 : ((List.range 128).map (fun i : ℕ =>
      (⟨Real.sin (6.28 / 128 * (i : ℝ)) * 5 + 14,
        Real.cos (6.28 / 128 * (i : ℝ)) * 5 + 5⟩ : Vec2 ℝ)) ++ [p]).get ⟨82 + 1, h83⟩ =
      ⟨Real.sin (6.28 / 128 * ((83 : ℕ) : ℝ)) * 5 + 14,
       Real.cos (6.28 / 128 * ((83 : ℕ) : ℝ)) * 5 + 5⟩ := by
    rw [List.get_eq_getElem]
    rw [List.getElem_append_left (by simp)]
    simp
  rw [hv82, hv83] at hmem
  exact hmem

theorem rectIntersects_true_of (r1 r2 : FloatRect K)
    (hw1 : 0 < r1.width) (hh1 : 0 < r1.height)
    (hw2 : 0 < r2.width) (hh2 : 0 < r2.height)
    (h1 : r1.left < r2.left + r2.width) (h2 : r2.left < r1.left + r1.width)
    (h3 : r1.top < r2.top + r2.height) (h4 : r2.top < r1.top + r1.height) :
    rectIntersects r1 r2 = true := by
  simp only [rectIntersects]
  rw [min_eq_left (le_add_of_nonneg_right hw1.le),
    max_eq_right (le_add_of_nonneg_right hw1.le),
    min_eq_left (le_add_of_nonneg_right hh1.le),
    max_eq_right (le_add_of_nonneg_right hh1.le),
    min_eq_left (le_add_of_nonneg_right hw2.le),
    max_eq_right (le_add_of_nonneg_right hw2.le),
    min_eq_left (le_add_of_nonneg_right hh2.le),
    max_eq_right (le_add_of_nonneg_right hh2.le)]
  rw [decide_eq_true (max_lt (lt_min (lt_add_of_pos_right _ hw1) h1)
      (lt_min h2 (lt_add_of_pos_right _ hw2))),
    decide_eq_true (max_lt (lt_min (lt_add_of_pos_right _ hh1) h3)
      (lt_min h4 (lt_add_of_pos_right _ hh2))), Bool.and_self]

theorem rectIntersects_false_of_x (r1 r2 : FloatRect K)
    (h : min (max r1.left (r1.left + r1.width))
          (max r2.left (r2.left + r2.width)) ≤
        max (min r1.left (r1.left + r1.width))
          (min r2.left (r2.left + r2.width))) :
    rectIntersects r1 r2 = false := by
  simp only [rectIntersects]
  rw [decide_eq_false (not_lt.mpr h), Bool.false_and]

set_option maxHeartbeats 1000000 in
theorem c1_rect_edge_lineIntersection :
    lineIntersection
      (⟨Real.sin (6437 / 1600 : ℝ) * 5 + 14,
        Real.cos (6437 / 1600 : ℝ) * 5 + 5⟩ : Vec2 ℝ)
      ⟨Real.sin (13031 / 3200 : ℝ) * 5 + 14,
        Real.cos (13031 / 3200 : ℝ) * 5 + 5⟩
      ⟨10, 0⟩ ⟨10, 10⟩ = true := by
  obtain ⟨⟨hsA1, hsA2⟩, hcA1, hcA2⟩ := sin_cos_A
  obtain ⟨⟨hsB1, hsB2⟩, hcB1, hcB2⟩ := sin_cos_B
  have hA1a : (0.1753185 : ℝ) ≤ (Real.cos (13031 / 3200 : ℝ) * 5 + 5) -
      (Real.cos (6437 / 1600 : ℝ) * 5 + 5) := by linarith
  have hA1b : (Real.cos (13031 / 3200 : ℝ) * 5 + 5) -
      (Real.cos (6437 / 1600 : ℝ) * 5 + 5) ≤ 0.2139015 := by linarith
  have hA2a : (0.001204 : ℝ) ≤ 10 - (Real.sin (13031 / 3200 : ℝ) * 5 + 14) := by
    linarith
  have hA2b : 10 - (Real.sin (13031 / 3200 : ℝ) * 5 + 14) ≤ 0.0131015 := by
    linarith
  have hA3a : (0.1400265 : ℝ) ≤ (Real.sin (6437 / 1600 : ℝ) * 5 + 14) -
      (Real.sin (13031 / 3200 : ℝ) * 5 + 14) := by linarith
  have hA3b : (Real.sin (6437 / 1600 : ℝ) * 5 + 14) -
      (Real.sin (13031 / 3200 : ℝ) * 5 + 14) ≤ 0.161328 := by linarith
  have hA4a : (2.0110725 : ℝ) ≤ Real.cos (13031 / 3200 : ℝ) * 5 + 5 := by
    linarith
  have hA4b : Real.cos (13031 / 3200 : ℝ) * 5 + 5 ≤ 2.032301 := by linarith
  have hA5a : (7.967699 : ℝ) ≤ 10 - (Real.cos (13031 / 3200 : ℝ) * 5 + 5) := by
    linarith
  have hA5b : 10 - (Real.cos (13031 / 3200 : ℝ) * 5 + 5) ≤ 7.9889275 := by
    linarith
  have hP1a : (0 : ℝ) ≤ ((Real.cos (13031 / 3200 : ℝ) * 5 + 5) -
      (Real.cos (6437 / 1600 : ℝ) * 5 + 5)) *
      (10 - (Real.sin (13031 / 3200 : ℝ) * 5 + 14)) :=
    mul_nonneg (by linarith) (by linarith)
  have hP1b : ((Real.cos (13031 / 3200 : ℝ) * 5 + 5) -
      (Real.cos (6437 / 1600 : ℝ) * 5 + 5)) *
      (10 - (Real.sin (13031 / 3200 : ℝ) * 5 + 14)) ≤ 0.2139015 * 0.0131015 :=
    mul_le_mul hA1b hA2b (by linarith) (by norm_num)
  have hQa : (0.1400265 : ℝ) * 2.0110725 ≤
      ((Real.sin (6437 / 1600 : ℝ) * 5 + 14) -
        (Real.sin (13031 / 3200 : ℝ) * 5 + 14)) *
      (Real.cos (13031 / 3200 : ℝ) * 5 + 5) :=
    mul_le_mul hA3a hA4a (by norm_num) (by linarith)
  have hQb : ((Real.sin (6437 / 1600 : ℝ) * 5 + 14) -
      (Real.sin (13031 / 3200 : ℝ) * 5 + 14)) *
      (Real.cos (13031 / 3200 : ℝ) * 5 + 5) ≤ 0.161328 * 2.032301 :=
    mul_le_mul hA3b hA4b (by linarith) (by norm_num)
  have hQeq : ((Real.sin (13031 / 3200 : ℝ) * 5 + 14) -
      (Real.sin (6437 / 1600 : ℝ) * 5 + 14)) *
      (0 - (Real.cos (13031 / 3200 : ℝ) * 5 + 5)) =
      ((Real.sin (6437 / 1600 : ℝ) * 5 + 14) -
        (Real.sin (13031 / 3200 : ℝ) * 5 + 14)) *
      (Real.cos (13031 / 3200 : ℝ) * 5 + 5) := by ring
  have hRa : (0.1400265 : ℝ) * 7.967699 ≤
      ((Real.sin (6437 / 1600 : ℝ) * 5 + 14) -
        (Real.sin (13031 / 3200 : ℝ) * 5 + 14)) *
      (10 - (Real.cos (13031 / 3200 : ℝ) * 5 + 5)) :=
    mul_le_mul hA3a hA5a (by norm_num) (by linarith)
  have hRb : ((Real.sin (6437 / 1600 : ℝ) * 5 + 14) -
      (Real.sin (13031 / 3200 : ℝ) * 5 + 14)) *
      (10 - (Real.cos (13031 / 3200 : ℝ) * 5 + 5)) ≤ 0.161328 * 7.9889275 :=
    mul_le_mul hA3b hA5b (by linarith) (by norm_num)
  have hReq : ((Real.sin (13031 / 3200 : ℝ) * 5 + 14) -
      (Real.sin (6437 / 1600 : ℝ) * 5 + 14)) *
      (10 - (Real.cos (13031 / 3200 : ℝ) * 5 + 5)) =
      -(((Real.sin (6437 / 1600 : ℝ) * 5 + 14) -
        (Real.sin (13031 / 3200 : ℝ) * 5 + 14)) *
      (10 - (Real.cos (13031 / 3200 : ℝ) * 5 + 5))) := by ring
  have ho1 : orientation
      (⟨Real.sin (6437 / 1600 : ℝ) * 5 + 14,
        Real.cos (6437 / 1600 : ℝ) * 5 + 5⟩ : Vec2 ℝ)
      ⟨Real.sin (13031 / 3200 : ℝ) * 5 + 14,
        Real.cos (13031 / 3200 : ℝ) * 5 + 5⟩ ⟨10, 0⟩ = 0 := by
    apply orientation_mk_eq_zero
    · linarith [hP1a, hP1b, hQa, hQb, hQeq]
    · linarith [hP1a, hP1b, hQa, hQb, hQeq]
  have ho2 : orientation
      (⟨Real.sin (6437 / 1600 : ℝ) * 5 + 14,
        Real.cos (6437 / 1600 : ℝ) * 5 + 5⟩ : Vec2 ℝ)
      ⟨Real.sin (13031 / 3200 : ℝ) * 5 + 14,
        Real.cos (13031 / 3200 : ℝ) * 5 + 5⟩ ⟨10, 10⟩ = 1 := by
    apply orientation_mk_eq_one
    · linarith [hP1a, hP1b, hRa, hRb, hReq]
    · linarith [hP1a, hP1b, hRa, hRb, hReq]
  have ho3 : orientation (⟨10, 0⟩ : Vec2 ℝ) ⟨10, 10⟩
      ⟨Real.sin (6437 / 1600 : ℝ) * 5 + 14,
        Real.cos (6437 / 1600 : ℝ) * 5 + 5⟩ = 1 := by
    apply orientation_mk_eq_one
    · linarith [hsA1, hsA2]
    · linarith [hsA1, hsA2]
  have ho4 : orientation (⟨10, 0⟩ : Vec2 ℝ) ⟨10, 10⟩
      ⟨Real.sin (13031 / 3200 : ℝ) * 5 + 14,
        Real.cos (13031 / 3200 : ℝ) * 5 + 5⟩ = 0 := by
    apply orientation_mk_eq_zero
    · linarith [hsB1, hsB2]
    · linarith [hsB1, hsB2]
  apply lineIntersection_true_of_general
  · rw [ho1, ho2]
    decide
  · rw [ho3, ho4]
    decide

theorem prefilter_true_of (r1 r2 : FloatRect K)
    (h1 : ¬ |r1.left| > |r2.left| + r2.width)
    (h2 : ¬ |r1.left| + r1.width < |r2.left|)
    (h3 : ¬ |r1.top| > |r2.top| + r2.height)
    (h4 : ¬ |r1.top| + r1.height < |r2.top|) :
    nonnegatively_dimensional_rect_intersection r1 r2 = true := by
  simp only [nonnegatively_dimensional_rect_intersection]
  rw [if_neg h1, if_neg h2, if_neg h3, if_neg h4]

set_option maxHeartbeats 1000000 in
set_option maxRecDepth 16000 in
theorem c1_collides_rect_true :
    collides (applyTransform (circle 5) (Transform.translation 9 0))
      (rectangle (⟨10, 10⟩ : Vec2 ℝ)) = true := by
  have hbounds : (applyTransform (circle 5) (Transform.translation 9 0)).m_globalBounds =
      updateGlobalBounds ((List.range 128).map fun i : ℕ =>
        (⟨Real.sin (6.28 / 128 * (i : ℝ)) * 5 + 14,
          Real.cos (6.28 / 128 * (i : ℝ)) * 5 + 5⟩ : Vec2 ℝ)) := by
    rw [applyTransform_m_globalBounds, ← applyTransform_m_arr, circle5_arr]
  set L : List (Vec2 ℝ) := (List.range 128).map fun i : ℕ =>
      (⟨Real.sin (6.28 / 128 * (i : ℝ)) * 5 + 14,
        Real.cos (6.28 / 128 * (i : ℝ)) * 5 + 5⟩ : Vec2 ℝ) with hL
  clear_value L
  have hLne : L ≠ [] := by
    rw [hL]
    intro h0
    have := congrArg List.length h0
    simp at this
  have hmemAll : ∀ p ∈ L, ((9:ℝ) ≤ p.x ∧ p.x ≤ 19) ∧ (0 ≤ p.y ∧ p.y ≤ 10) := by
    rw [hL]
    intro p hp
    obtain ⟨i, -, rfl⟩ := List.mem_map.mp hp
    have hs1 := Real.neg_one_le_sin (6.28 / 128 * (i : ℝ))
    have hs2 := Real.sin_le_one (6.28 / 128 * (i : ℝ))
    have hc1 := Real.neg_one_le_cos (6.28 / 128 * (i : ℝ))
    have hc2 := Real.cos_le_one (6.28 / 128 * (i : ℝ))
    refine ⟨⟨?_, ?_⟩, ?_, ?_⟩ <;> dsimp only <;> linarith
  have hm82 : (⟨Real.sin (6.28 / 128 * ((82 : ℕ) : ℝ)) * 5 + 14,
      Real.cos (6.28 / 128 * ((82 : ℕ) : ℝ)) * 5 + 5⟩ : Vec2 ℝ) ∈ L := by
    rw [hL]
    exact List.mem_map.mpr ⟨82, List.mem_range.mpr (by norm_num), rfl⟩
  have hm83 : (⟨Real.sin (6.28 / 128 * ((83 : ℕ) : ℝ)) * 5 + 14,
      Real.cos (6.28 / 128 * ((83 : ℕ) : ℝ)) * 5 + 5⟩ : Vec2 ℝ) ∈ L := by
    rw [hL]
    exact List.mem_map.mpr ⟨83, List.mem_range.mpr (by norm_num), rfl⟩
  have hm0 : (⟨Real.sin (6.28 / 128 * ((0 : ℕ) : ℝ)) * 5 + 14,
      Real.cos (6.28 / 128 * ((0 : ℕ) : ℝ)) * 5 + 5⟩ : Vec2 ℝ) ∈ L := by
    rw [hL]
    exact List.mem_map.mpr ⟨0, List.mem_range.mpr (by norm_num), rfl⟩
  have hw0 : (0:ℝ) ≤ (updateGlobalBounds L).width :=
    (wf_bounds_nonneg (⟨L, updateGlobalBounds L⟩ : Collider ℝ) rfl).1
  have hh0 : (0:ℝ) ≤ (updateGlobalBounds L).height :=
    (wf_bounds_nonneg (⟨L, updateGlobalBounds L⟩ : Collider ℝ) rfl).2
  have hleft_lo : (9:ℝ) ≤ (updateGlobalBounds L).left :=
    le_bounds_left L hLne 9 (fun p hp => ((hmemAll p hp).1).1)
  have hleft_hi : (updateGlobalBounds L).left ≤
      Real.sin (6.28 / 128 * ((83 : ℕ) : ℝ)) * 5 + 14 := bounds_left_le L hm83
  have hright_lo : Real.sin (6.28 / 128 * ((82 : ℕ) : ℝ)) * 5 + 14 ≤
      (updateGlobalBounds L).left + (updateGlobalBounds L).width :=
    le_bounds_right L hm82
  have htop_lo : (0:ℝ) ≤ (updateGlobalBounds L).top :=
    le_bounds_top L hLne 0 (fun p hp => ((hmemAll p hp).2).1)
  have htop_hi : (updateGlobalBounds L).top ≤
      Real.cos (6.28 / 128 * ((83 : ℕ) : ℝ)) * 5 + 5 := bounds_top_le L hm83
  have hbot_lo : Real.cos (6.28 / 128 * ((0 : ℕ) : ℝ)) * 5 + 5 ≤
      (updateGlobalBounds L).top + (updateGlobalBounds L).height :=
    le_bounds_bottom L hm0
  have hbot_hi : (updateGlobalBounds L).top + (updateGlobalBounds L).height ≤ 10 :=
    bounds_bottom_le L 10 (by norm_num) (fun p hp => ((hmemAll p hp).2).2)
  have hang82 : (6.28:ℝ) / 128 * ((82 : ℕ) : ℝ) = 6437 / 1600 := by norm_num
  have hang83 : (6.28:ℝ) / 128 * ((83 : ℕ) : ℝ) = 13031 / 3200 := by norm_num
  have hang0 : Real.cos ((6.28:ℝ) / 128 * ((0 : ℕ) : ℝ)) * 5 + 5 = 10 := by
    norm_num [Real.cos_zero]
  rw [hang82] at hright_lo
  rw [hang83] at hleft_hi htop_hi
  rw [hang0] at hbot_lo
  obtain ⟨⟨hsA1, hsA2⟩, hcA1, hcA2⟩ := sin_cos_A
  obtain ⟨⟨hsB1, hsB2⟩, hcB1, hcB2⟩ := sin_cos_B
  have hri : rectIntersects (updateGlobalBounds L)
      (⟨0, 0, 10, 10⟩ : FloatRect ℝ) = true := by
    apply rectIntersects_true_of
    · linarith
    · linarith
    · show (0:ℝ) < 10
      norm_num
    · show (0:ℝ) < 10
      norm_num
    · show (updateGlobalBounds L).left < 0 + 10
      linarith
    · show (0:ℝ) < (updateGlobalBounds L).left + (updateGlobalBounds L).width
      linarith
    · show (updateGlobalBounds L).top < 0 + 10
      linarith
    · show (0:ℝ) < (updateGlobalBounds L).top + (updateGlobalBounds L).height
      linarith
  have hpref : nonnegatively_dimensional_rect_intersection (updateGlobalBounds L)
      (⟨0, 0, 10, 10⟩ : FloatRect ℝ) = true := by
    have habsL : |(updateGlobalBounds L).left| = (updateGlobalBounds L).left :=
      abs_of_nonneg (by linarith)
    have habsT : |(updateGlobalBounds L).top| = (updateGlobalBounds L).top :=
      abs_of_nonneg (by linarith)
    apply prefilter_true_of
    · show ¬ |(updateGlobalBounds L).left| > |(0:ℝ)| + 10
      rw [habsL, abs_zero]
      push_neg
      linarith
    · show ¬ |(updateGlobalBounds L).left| + (updateGlobalBounds L).width < |(0:ℝ)|
      rw [habsL, abs_zero]
      push_neg
      linarith
    · show ¬ |(updateGlobalBounds L).top| > |(0:ℝ)| + 10
      rw [habsT, abs_zero]
      push_neg
      linarith
    · show ¬ |(updateGlobalBounds L).top| + (updateGlobalBounds L).height < |(0:ℝ)|
      rw [habsT, abs_zero]
      push_neg
      linarith
  have hEdge := c1_edge_mem
  rw [hang82, hang83] at hEdge
  have hInt : intersects (applyTransform (circle 5) (Transform.translation 9 0))
      (rectangle (⟨10, 10⟩ : Vec2 ℝ)) = true := by
    simp only [intersects, getGlobalBounds]
    simp only [hbounds, rect_bounds]
    rw [if_neg (by
      intro hcond
      rcases hcond with h | h | h
      · exact h hpref
      · exact rect_ne_nil (List.isEmpty_iff.mp h)
      · exact c1_arr_ne_nil (List.isEmpty_iff.mp h))]
    refine List.any_eq_true.mpr ⟨_, hEdge, List.any_eq_true.mpr ⟨_, rect_edge_mem, ?_⟩⟩
    exact c1_rect_edge_lineIntersection
  simp only [collides, getGlobalBounds]
  simp only [hbounds, rect_bounds]
  rw [if_neg (not_not_intro hri), if_pos hInt]

set_option maxHeartbeats 1000000 in
set_option maxRecDepth 16000 in
theorem c2_collides_rect_false :
    collides (applyTransform (applyTransform (circle 5) (Transform.translation 9 0))
        (Transform.translation 9 0))
      (rectangle (⟨10, 10⟩ : Vec2 ℝ)) = false := by
  have hbounds2 : (applyTransform (applyTransform (circle 5) (Transform.translation 9 0))
      (Transform.translation 9 0)).m_globalBounds =
      updateGlobalBounds ((List.range 128).map fun i : ℕ =>
        (⟨Real.sin (6.28 / 128 * (i : ℝ)) * 5 + 23,
          Real.cos (6.28 / 128 * (i : ℝ)) * 5 + 5⟩ : Vec2 ℝ)) := by
    rw [applyTransform_m_globalBounds, ← applyTransform_m_arr, circle5_arr2]
  set L2 : List (Vec2 ℝ) := (List.range 128).map fun i : ℕ =>
      (⟨Real.sin (6.28 / 128 * (i : ℝ)) * 5 + 23,
        Real.cos (6.28 / 128 * (i : ℝ)) * 5 + 5⟩ : Vec2 ℝ) with hL2
  clear_value L2
  have hL2ne : L2 ≠ [] := by
    rw [hL2]
    intro h0
    have := congrArg List.length h0
    simp at this
  have hmemX : ∀ p ∈ L2, (18:ℝ) ≤ p.x := by
    rw [hL2]
    intro p hp
    obtain ⟨i, -, rfl⟩ := List.mem_map.mp hp
    have hs1 := Real.neg_one_le_sin (6.28 / 128 * (i : ℝ))
    dsimp only
    linarith
  have h18 : (18:ℝ) ≤ (updateGlobalBounds L2).left :=
    le_bounds_left L2 hL2ne 18 hmemX
  have hw2 : (0:ℝ) ≤ (updateGlobalBounds L2).width :=
    (wf_bounds_nonneg (⟨L2, updateGlobalBounds L2⟩ : Collider ℝ) rfl).1
  have hri : rectIntersects (updateGlobalBounds L2)
      (⟨0, 0, 10, 10⟩ : FloatRect ℝ) = false := by
    apply rectIntersects_false_of_x
    refine le_trans (min_le_right _ _) (le_trans ?_ (le_max_left _ _))
    show max (0:ℝ) (0 + 10) ≤
      min (updateGlobalBounds L2).left
        ((updateGlobalBounds L2).left + (updateGlobalBounds L2).width)
    refine max_le (le_min ?_ ?_) (le_min ?_ ?_) <;> linarith
  simp only [collides, getGlobalBounds]
  simp only [hbounds2, rect_bounds]
  rw [if_pos (show ¬ rectIntersects (updateGlobalBounds L2)
      (⟨0, 0, 10, 10⟩ : FloatRect ℝ) = true by
    rw [hri]
    simp)]

theorem intersects_self_of_ne_nil (c : Collider K) (h : c.m_arr ≠ [])
    (hpre : nonnegatively_dimensional_rect_intersection (getGlobalBounds c)
      (getGlobalBounds c) = true) :
    intersects c c = true := by
  simp only [intersects]
  rw [if_neg]
  · obtain ⟨e, he⟩ := List.exists_mem_of_ne_nil _ (edges_ne_nil c h)
    exact List.any_eq_true.mpr
      ⟨e, he, List.any_eq_true.mpr ⟨e, he, lineIntersection_self e.1 e.2⟩⟩
  · simp [hpre, h]

end SFGF

attribute [local semireducible] Rat.add Rat.mul Rat.inv Rat.sub Rat.ofScientific

section Sanity

open SFGF

theorem sanity_lineIntersection_doc_sample :
    lineIntersection (K := ℚ) ⟨0, 0⟩ ⟨50, 20⟩ ⟨25, 0⟩ ⟨25, 50⟩ = true := by
  decide

theorem sanity_rectangle_self_collides :
    collides (rectangle (⟨10, 10⟩ : Vec2 ℚ)) (rectangle ⟨10, 10⟩) = true := by
  decide

theorem sanity_rectangle_contains_center :
    contains (rectangle (⟨10, 10⟩ : Vec2 ℚ)) ⟨5, 5⟩ = true := by decide

theorem sanity_rectangle_not_contains_outside :
    contains (rectangle (⟨10, 10⟩ : Vec2 ℚ)) ⟨-1, -1⟩ = false := by decide

end Sanity

section Claims

open SFGF

/-- C1, counterexample to the claim as stated: one `pushBack` of the vertex
`(-5,-5)` into a default collider leaves `getGlobalBounds()` at
`(-5,-5,5,5)` — because the running maximum is seeded at the origin — while
the tight axis-aligned box of the vertex list `[(-5,-5)]` is `(-5,-5,0,0)`. -/
theorem C1_counterexample :
    (pushBack (colliderDefault (K := ℚ)) ⟨-5, -5⟩).m_arr = [⟨-5, -5⟩] ∧
    getGlobalBounds (pushBack (colliderDefault (K := ℚ)) ⟨-5, -5⟩) ≠
      specTightBounds [(⟨-5, -5⟩ : Vec2 ℚ)] := by
  decide

/-- C1 (amended): after any sequence of mutating operations
(`pushBack`, `clear`, `applyTransform`) starting from a default-constructed
collider, `getGlobalBounds()` has left/top equal to the per-axis minima of
the current vertices, while left+width and top+height equal the maximum of
`0` and the per-axis maxima (so the box is tight only when the per-axis
maxima are nonnegative), and the empty vertex list yields the degenerate
zero-size box anchored at the origin. -/
theorem C1_bounds_after_mutation_amended (ops : List (MutOp ℚ)) :
    getGlobalBounds (runOps colliderDefault ops) =
      clampedTightBounds (runOps colliderDefault ops).m_arr := by
  have h := wf_runOps ops (colliderDefault (K := ℚ)) wf_colliderDefault
  rw [getGlobalBounds, h, updateGlobalBounds_eq_clamped]

/-- C3: the documented usage sample holds exactly as executed by the code:
with c = circle(5) and r = rectangle({10,10}), after one applyTransform of a
translation by (9,0) we have c.collides(r) = true, and after a second
identical applyTransform (cumulative translation (18,0)) c.collides(r) =
false. -/
theorem C3_doc_sample_collides :
    collides (applyTransform (circle 5) (Transform.translation 9 0))
        (rectangle (⟨10, 10⟩ : Vec2 ℝ)) = true ∧
    collides (applyTransform (applyTransform (circle 5) (Transform.translation 9 0))
        (Transform.translation 9 0))
        (rectangle (⟨10, 10⟩ : Vec2 ℝ)) = false :=
  ⟨c1_collides_rect_true, c2_collides_rect_false⟩

/-- C4: an empty collider (with its cached bounds as every mutator leaves
them) participates in no collision: `intersects` and `collides` are false in
both argument orders against any other collider, and `contains` is false for
every point. -/
theorem C4_empty_no_collision (a b : Collider ℚ) (ha : WF a)
    (he : a.m_arr = []) :
    intersects a b = false ∧ intersects b a = false ∧
    collides a b = false ∧ collides b a = false ∧
    ∀ p : Vec2 ℚ, contains a p = false :=
  ⟨intersects_empty_left a b he, intersects_empty_right b a he,
   collides_empty_left a b ha he, collides_empty_right b a ha he,
   fun p => contains_empty a he p⟩

/-- C4 witness: instantiated right after `clear()` of a rectangle, against a
live rectangle and the sample point `(3,7)`. -/
theorem C4_witness :
    (WF (clear (rectangle (⟨10, 10⟩ : Vec2 ℚ))) ∧
      (clear (rectangle (⟨10, 10⟩ : Vec2 ℚ))).m_arr = []) ∧
    collides (clear (rectangle (⟨10, 10⟩ : Vec2 ℚ)))
      (rectangle ⟨10, 10⟩) = false ∧
    collides (rectangle (⟨10, 10⟩ : Vec2 ℚ))
      (clear (rectangle ⟨10, 10⟩)) = false ∧
    contains (clear (rectangle (⟨10, 10⟩ : Vec2 ℚ))) ⟨3, 7⟩ = false :=
  ⟨⟨rfl, by decide⟩,
   (C4_empty_no_collision (clear (rectangle ⟨10, 10⟩)) (rectangle ⟨10, 10⟩)
     rfl (by decide)).2.2.1,
   (C4_empty_no_collision (clear (rectangle ⟨10, 10⟩)) (rectangle ⟨10, 10⟩)
     rfl (by decide)).2.2.2.1,
   (C4_empty_no_collision (clear (rectangle ⟨10, 10⟩)) (rectangle ⟨10, 10⟩)
     rfl (by decide)).2.2.2.2 ⟨3, 7⟩⟩

/-- C10: the edge-intersection query `intersects` is symmetric in its two
arguments (the absolute-value box pre-filter, the emptiness tests and the
pairwise `lineIntersection` scan are all invariant under swapping). -/
theorem C10_intersects_symmetric (a b : Collider ℚ) :
    intersects a b = intersects b a :=
  intersects_comm a b

/-- C7, counterexample to the claim as stated: a non-empty collider holding
the single vertex `(1,1)` does not collide with an identical copy of itself,
because its cached bounds are degenerate (zero width and height) and
`sf::FloatRect::intersects` tests strict overlap. -/
theorem C7_counterexample :
    (pushBack (colliderDefault (K := ℚ)) ⟨1, 1⟩).m_arr ≠ [] ∧
    collides (pushBack (colliderDefault (K := ℚ)) ⟨1, 1⟩)
      (pushBack (colliderDefault (K := ℚ)) ⟨1, 1⟩) = false := by
  decide

/-- C7 (amended): every collider whose cached bounding box has positive
width and positive height collides with an identical copy of itself (the
bounds test passes strictly, and the first edge of the loop intersects
itself through the collinear/on-segment branch). -/
theorem C7_self_collides_amended (c : Collider ℚ) (hwf : WF c)
    (hw : 0 < c.m_globalBounds.width) (hh : 0 < c.m_globalBounds.height) :
    collides c c = true := by
  have hne : c.m_arr ≠ [] := arr_ne_nil_of_width_pos c hwf hw
  simp only [collides, getGlobalBounds]
  rw [if_neg (not_not_intro (rectIntersects_self_pos c.m_globalBounds hw hh)),
    if_pos (intersects_self_of_ne_nil c hne
      (prefilter_self c.m_globalBounds hw.le hh.le))]

/-- C7 witness: a `rectangle({10,10})` collider collides with itself. -/
theorem C7_witness :
    (WF (rectangle (⟨10, 10⟩ : Vec2 ℚ)) ∧
      0 < (rectangle (⟨10, 10⟩ : Vec2 ℚ)).m_globalBounds.width ∧
      0 < (rectangle (⟨10, 10⟩ : Vec2 ℚ)).m_globalBounds.height) ∧
    collides (rectangle (⟨10, 10⟩ : Vec2 ℚ)) (rectangle ⟨10, 10⟩) = true :=
  ⟨⟨rfl, by decide, by decide⟩,
   C7_self_collides_amended (rectangle ⟨10, 10⟩) rfl (by decide) (by decide)⟩

/-- C9, counterexample to the claim as stated: two triangles sharing the
vertical edge `x = 1` have `intersects = true` (the shared edge reports a
collinear intersection) while `collides = false`, because their bounding
boxes only touch and `sf::FloatRect::intersects` requires strict overlap. -/
theorem C9_counterexample :
    intersects
      (pushBack (pushBack (pushBack (colliderDefault (K := ℚ)) ⟨0, 0⟩)
        ⟨1, 0⟩) ⟨1, 1⟩)
      (pushBack (pushBack (pushBack (colliderDefault (K := ℚ)) ⟨1, 0⟩)
        ⟨2, 0⟩) ⟨1, 1⟩) = true ∧
    collides
      (pushBack (pushBack (pushBack (colliderDefault (K := ℚ)) ⟨0, 0⟩)
        ⟨1, 0⟩) ⟨1, 1⟩)
      (pushBack (pushBack (pushBack (colliderDefault (K := ℚ)) ⟨1, 0⟩)
        ⟨2, 0⟩) ⟨1, 1⟩) = false := by
  decide

/-- C9 (amended): whenever the cached bounding boxes pass the strict
`sf::FloatRect::intersects` test, `intersects a b = true` implies
`collides a b = true`. -/
theorem C9_intersects_implies_collides_amended (a b : Collider ℚ)
    (hbb : rectIntersects (getGlobalBounds a) (getGlobalBounds b) = true)
    (hint : intersects a b = true) : collides a b = true := by
  simp only [collides]
  rw [if_neg (not_not_intro hbb), if_pos hint]

/-- C2, counterexample to the claim as stated: a wide quad reaching into
negative `x` and a small triangle near `x = 1` have crossing edges (the
triangle's vertical edge crosses the quad's bottom edge), yet
`intersects = false`: the absolute-value pre-filter turns the quad's left
bound `-10` into `10` and separates the two boxes. -/
theorem C2_counterexample :
    (∃ e1 ∈ edges (pushBack (pushBack (pushBack (pushBack
        (colliderDefault (K := ℚ)) ⟨-10, 0⟩) ⟨1, 0⟩) ⟨1, 1⟩) ⟨-10, 1⟩),
      ∃ e2 ∈ edges (pushBack (pushBack (pushBack (colliderDefault (K := ℚ))
        ⟨1/2, -1/2⟩) ⟨1, 1/2⟩) ⟨1/2, 1/2⟩),
        lineIntersection e1.1 e1.2 e2.1 e2.2 = true) ∧
    intersects
      (pushBack (pushBack (pushBack (pushBack (colliderDefault (K := ℚ))
        ⟨-10, 0⟩) ⟨1, 0⟩) ⟨1, 1⟩) ⟨-10, 1⟩)
      (pushBack (pushBack (pushBack (colliderDefault (K := ℚ))
        ⟨1/2, -1/2⟩) ⟨1, 1/2⟩) ⟨1/2, 1/2⟩) = false := by
  decide

/-- C2 (amended): for non-empty colliders, `intersects a b = true` iff the
absolute-value-normalised box pre-filter passes *and* some edge of `a`'s
closed loop intersects some edge of `b`'s closed loop according to
`lineIntersection`. -/
theorem C2_edge_scan_iff_amended (a b : Collider ℚ) (ha : a.m_arr ≠ [])
    (hb : b.m_arr ≠ []) :
    intersects a b = true ↔
      (nonnegatively_dimensional_rect_intersection (getGlobalBounds a)
          (getGlobalBounds b) = true ∧
        ∃ e1 ∈ edges a, ∃ e2 ∈ edges b,
          lineIntersection e1.1 e1.2 e2.1 e2.2 = true) := by
  simp only [intersects]
  by_cases hp : nonnegatively_dimensional_rect_intersection (getGlobalBounds a)
      (getGlobalBounds b) = true
  · rw [if_neg (by simp [hp, ha, hb])]
    simp only [List.any_eq_true, hp, true_and]
  · rw [if_pos (Or.inl hp)]
    simp [hp]

/-- C2 witness: the amended equivalence instantiated at two overlapping
rectangles, whose pre-filter passes and whose edges intersect. -/
theorem C2_witness :
    ((rectangle (⟨10, 10⟩ : Vec2 ℚ)).m_arr ≠ [] ∧
      (pushBack (pushBack (pushBack (pushBack (colliderDefault (K := ℚ))
        ⟨5, 5⟩) ⟨15, 5⟩) ⟨15, 15⟩) ⟨5, 15⟩).m_arr ≠ []) ∧
    (intersects (rectangle (⟨10, 10⟩ : Vec2 ℚ))
        (pushBack (pushBack (pushBack (pushBack (colliderDefault (K := ℚ))
          ⟨5, 5⟩) ⟨15, 5⟩) ⟨15, 15⟩) ⟨5, 15⟩) = true ↔
      (nonnegatively_dimensional_rect_intersection
          (getGlobalBounds (rectangle (⟨10, 10⟩ : Vec2 ℚ)))
          (getGlobalBounds (pushBack (pushBack (pushBack (pushBack
            (colliderDefault (K := ℚ)) ⟨5, 5⟩) ⟨15, 5⟩) ⟨15, 15⟩) ⟨5, 15⟩)) = true ∧
        ∃ e1 ∈ edges (rectangle (⟨10, 10⟩ : Vec2 ℚ)),
          ∃ e2 ∈ edges (pushBack (pushBack (pushBack (pushBack
            (colliderDefault (K := ℚ)) ⟨5, 5⟩) ⟨15, 5⟩) ⟨15, 15⟩) ⟨5, 15⟩),
            lineIntersection e1.1 e1.2 e2.1 e2.2 = true)) :=
  ⟨⟨by decide, by decide⟩,
   C2_edge_scan_iff_amended _ _ (by decide) (by decide)⟩

/-- C8, counterexample to the claim as stated: the big square
`rectangle({100,100})` strictly encloses the degenerate two-vertex collider
`[(1,1),(1,2)]` — every vertex of the small collider is contained in the
square, no square vertex is contained in the small collider, and no edge
pair intersects — yet `A.collides(B)` is false, because B's cached bounding
box has zero width and fails the strict SFML overlap test. -/
theorem C8_counterexample :
    (∀ v ∈ (pushBack (pushBack (colliderDefault (K := ℚ)) ⟨1, 1⟩)
        ⟨1, 2⟩).m_arr,
      contains (rectangle ⟨100, 100⟩) v = true) ∧
    (∀ w ∈ (rectangle (⟨100, 100⟩ : Vec2 ℚ)).m_arr,
      contains (pushBack (pushBack colliderDefault ⟨1, 1⟩) ⟨1, 2⟩) w = false) ∧
    (∀ e1 ∈ edges (rectangle (⟨100, 100⟩ : Vec2 ℚ)),
      ∀ e2 ∈ edges (pushBack (pushBack (colliderDefault (K := ℚ)) ⟨1, 1⟩)
        ⟨1, 2⟩),
        lineIntersection e1.1 e1.2 e2.1 e2.2 = false) ∧
    (rectangle (⟨100, 100⟩ : Vec2 ℚ)).m_arr ≠ [] ∧
    (pushBack (pushBack (colliderDefault (K := ℚ)) ⟨1, 1⟩) ⟨1, 2⟩).m_arr ≠ [] ∧
    collides (rectangle (⟨100, 100⟩ : Vec2 ℚ))
      (pushBack (pushBack colliderDefault ⟨1, 1⟩) ⟨1, 2⟩) = false := by
  decide

/-- C8 (amended): for non-empty colliders where every vertex of `B` is
contained in `A`, no vertex of `A` is contained in `B`, no edge pair
intersects according to `lineIntersection`, and additionally the cached
bounding boxes pass the strict SFML overlap test, `A.collides(B)` is true
while `B.collides(A)` is false. -/
theorem C8_enclosure_asymmetric_amended (A B : Collider ℚ)
    (hA : A.m_arr ≠ []) (_hB : B.m_arr ≠ [])
    (h1 : ∀ v ∈ B.m_arr, contains A v = true)
    (h2 : ∀ w ∈ A.m_arr, contains B w = false)
    (h3 : ∀ e1 ∈ edges A, ∀ e2 ∈ edges B,
      lineIntersection e1.1 e1.2 e2.1 e2.2 = false)
    (h4 : rectIntersects (getGlobalBounds A) (getGlobalBounds B) = true) :
    collides A B = true ∧ collides B A = false := by
  have hintAB : intersects A B = false := by
    simp only [intersects]
    by_cases hc : (¬ nonnegatively_dimensional_rect_intersection
        (getGlobalBounds A) (getGlobalBounds B) = true ∨
        B.m_arr.isEmpty = true ∨ A.m_arr.isEmpty = true)
    · rw [if_pos hc]
    · rw [if_neg hc]
      apply List.any_eq_false.mpr
      intro e1 he1
      rw [Bool.not_eq_true, List.any_eq_false]
      intro e2 he2
      simp [h3 e1 he1 e2 he2]
  constructor
  · simp only [collides]
    rw [if_neg (not_not_intro h4), if_neg (by simp [hintAB]),
      List.all_eq_true]
    exact fun v hv => h1 v hv
  · by_cases hba : rectIntersects (getGlobalBounds B) (getGlobalBounds A) = true
    · simp only [collides]
      rw [if_neg (not_not_intro hba),
        if_neg (by simp [intersects_comm B A, hintAB])]
      obtain ⟨w, hw⟩ := List.exists_mem_of_ne_nil _ hA
      exact List.all_eq_false.mpr ⟨w, hw, by simp [h2 w hw]⟩
    · simp only [collides]
      rw [if_pos hba]

/-- C8 witness: `rectangle({9,9})` strictly enclosing the square
`[(3,3),(6,3),(6,6),(3,6)]`. -/
theorem C8_witness :
    ((rectangle (⟨9, 9⟩ : Vec2 ℚ)).m_arr ≠ [] ∧
      (pushBack (pushBack (pushBack (pushBack (colliderDefault (K := ℚ))
        ⟨3, 3⟩) ⟨6, 3⟩) ⟨6, 6⟩) ⟨3, 6⟩).m_arr ≠ []) ∧
    collides (rectangle (⟨9, 9⟩ : Vec2 ℚ))
      (pushBack (pushBack (pushBack (pushBack (colliderDefault (K := ℚ))
        ⟨3, 3⟩) ⟨6, 3⟩) ⟨6, 6⟩) ⟨3, 6⟩) = true ∧
    collides (pushBack (pushBack (pushBack (pushBack (colliderDefault (K := ℚ))
        ⟨3, 3⟩) ⟨6, 3⟩) ⟨6, 6⟩) ⟨3, 6⟩)
      (rectangle (⟨9, 9⟩ : Vec2 ℚ)) = false :=
  ⟨⟨by decide, by decide⟩,
   (C8_enclosure_asymmetric_amended (rectangle ⟨9, 9⟩)
     (pushBack (pushBack (pushBack (pushBack colliderDefault ⟨3, 3⟩) ⟨6, 3⟩)
       ⟨6, 6⟩) ⟨3, 6⟩)
     (by decide) (by decide) (by decide) (by decide) (by decide)
     (by decide)).1,
   (C8_enclosure_asymmetric_amended (rectangle ⟨9, 9⟩)
     (pushBack (pushBack (pushBack (pushBack colliderDefault ⟨3, 3⟩) ⟨6, 3⟩)
       ⟨6, 6⟩) ⟨3, 6⟩)
     (by decide) (by decide) (by decide) (by decide) (by decide)
     (by decide)).2⟩

/-- C9 witness: two overlapping axis-aligned squares. -/
theorem C9_witness :
    (rectIntersects
        (getGlobalBounds (rectangle (⟨10, 10⟩ : Vec2 ℚ)))
        (getGlobalBounds (pushBack (pushBack (pushBack (pushBack
          (colliderDefault (K := ℚ)) ⟨5, 5⟩) ⟨15, 5⟩) ⟨15, 15⟩) ⟨5, 15⟩)) = true ∧
      intersects (rectangle (⟨10, 10⟩ : Vec2 ℚ))
        (pushBack (pushBack (pushBack (pushBack
          (colliderDefault (K := ℚ)) ⟨5, 5⟩) ⟨15, 5⟩) ⟨15, 15⟩) ⟨5, 15⟩) = true) ∧
    collides (rectangle (⟨10, 10⟩ : Vec2 ℚ))
      (pushBack (pushBack (pushBack (pushBack
        (colliderDefault (K := ℚ)) ⟨5, 5⟩) ⟨15, 5⟩) ⟨15, 15⟩) ⟨5, 15⟩) = true :=
  ⟨⟨by decide, by decide⟩,
   C9_intersects_implies_collides_amended _ _ (by decide) (by decide)⟩

/-- C5 (code bug): two parallel, non-overlapping segments are reported as
intersecting.  The segments `(0,0)–(10,10)` and `(1.04,0.96)–(9.04,8.96)`
are parallel (equal direction cross product) and share no point, yet
`lineIntersection` returns `true`: the exact cross product `0.8` is
truncated to the `int` value `0`, which sends the function into its
collinear/on-segment branch, and the bounding-box test there passes.  This
contradicts the function's own documentation
("returns True if lines intersect, False otherwise"). -/
theorem C5_parallel_disjoint_reported_intersecting :
    parallelSegs (⟨0, 0⟩ : Vec2 ℚ) ⟨10, 10⟩ ⟨26/25, 24/25⟩ ⟨226/25, 224/25⟩ ∧
    (∀ r : Vec2 ℚ, ¬ (segMem ⟨0, 0⟩ ⟨10, 10⟩ r ∧
      segMem ⟨26/25, 24/25⟩ ⟨226/25, 224/25⟩ r)) ∧
    lineIntersection (⟨0, 0⟩ : Vec2 ℚ) ⟨10, 10⟩ ⟨26/25, 24/25⟩
      ⟨226/25, 224/25⟩ = true := by
  refine ⟨by norm_num [parallelSegs], ?_, by decide⟩
  rintro r ⟨⟨t, _, _, hx1, hy1⟩, ⟨u, _, _, hx2, hy2⟩⟩
  norm_num at hx1 hy1 hx2 hy2
  linarith

/-- C6 (code bug): `circle(radius, cnt)` does produce `cnt` vertices, but
the sampling constant is the truncated literal `6.28`, not a full-precision
`2π`: at `radius = 1`, `cnt = 2`, vertex `i = 1` the code yields
`(sin 3.14 + 1, cos 3.14 + 1)`, while the specified formula yields
`(sin π + 1, cos π + 1)`; these differ because `sin 3.14 > 0 = sin π`. -/
theorem C6_circle_truncated_two_pi :
    (∀ (radius : ℝ) (cnt : ℕ), (circle radius cnt).m_arr.length = cnt) ∧
    (circle 1 2).m_arr.getD 1 ⟨0, 0⟩ ≠ specCircleVertex 1 2 1 := by
  refine ⟨circle_length, ?_⟩
  rw [circle_m_arr]
  intro h
  have hx := congrArg Vec2.x h
  norm_num [List.range_succ, specCircleVertex] at hx
  have hpos : 0 < Real.sin (157 / 50 : ℝ) :=
    Real.sin_pos_of_pos_of_lt_pi (by norm_num)
      (lt_of_eq_of_lt (by norm_num) Real.pi_gt_d2)
  linarith

end Claims
